import Mathlib

/-!
# Verification of the openlabels core engines

Shallow embedding of the four core engines of the `openlabels` repository:

* span overlap detection / deduplication (`src/openlabels/core/_rust/src/spans.rs`),
* the risk scoring engine (`src/openlabels/core/_rust/src/scoring.rs`),
* the checksum validators (`src/openlabels/core/_rust/src/checksum.rs` and
  `src/openlabels/core/_rust/src/validators.rs`),
* the two pattern matchers (`src/openrisk/src/matcher.rs` and
  `src/openlabels/core/_rust/src/lib.rs`).

Rust `f64` values are modelled as exact rationals (`ℚ`); the transcendental
`f64::ln` intrinsic is passed as an explicit parameter where it occurs, since
every concrete evaluation below only uses `ln 1.0 = 0.0`, which is exact in
IEEE 754.  Rust `usize` is `ℕ`.  Rust strings are `List Char`; where the code
manipulates UTF-8 byte indices, byte lengths are computed with `Char.utf8Size`
and byte slicing is partial (`Option`), `none` marking the byte-boundary panic
of `str` slicing.  Code that can panic is embedded in `Except Unit`.
-/

namespace OpenLabels

/-- Digit value of an ASCII digit character (`c.to_digit(10)` for `'0'..='9'`). -/
def dval (c : Char) : Nat := c.toNat - 48

/-- Rust `char::is_ascii_digit`. -/
def isAsciiDigit (c : Char) : Bool := 48 ≤ c.toNat && c.toNat ≤ 57

/-- Rust `u32`/`usize` parse of a digit string, most significant digit first
(`"123".parse()`), on the digit-value list. -/
def natOfDigits (l : List Nat) : Nat := l.foldl (fun a d => a * 10 + d) 0

/-- Extract the sublist `[s, e)` of a list, the model of `&text[s..e]` /
`m.as_str()` for char-indexed spans. -/
def sliceList (text : List Char) (s e : Nat) : List Char := (text.drop s).take (e - s)

/-- Rust `char::is_whitespace`, restricted to the ASCII whitespace characters
(the only ones the developments below evaluate it on). -/
def isRustWhitespace (c : Char) : Bool :=
  c = ' ' || c = '\t' || c = '\n' || c = '\r' || c = '\x0b' || c = '\x0c'

/-- `s.trim().is_empty()`: every character is whitespace. -/
def allWhitespace (l : List Char) : Bool := l.all isRustWhitespace

/-- UTF-8 byte length of a string, the model of Rust `str::len`. -/
def byteLen (l : List Char) : Nat := (l.map Char.utf8Size).sum

/-- Split a string at UTF-8 byte index `n`, the model of the pair
`(&s[..n], &s[n..])`.  Returns `none` when `n` is not a character boundary or
is past the end: Rust `str` slicing panics there. -/
def byteSplitAt : Nat → List Char → Option (List Char × List Char)
  | 0, l => some ([], l)
  | _ + 1, [] => none
  | n + 1, c :: rest =>
    if c.utf8Size ≤ n + 1 then
      (byteSplitAt (n + 1 - c.utf8Size) rest).map (fun p => (c :: p.1, p.2))
    else
      none

/-- Shared Luhn mod-10 check over a digit-value list: double every second digit
from the rightmost, subtract 9 if over 9; fewer than two digits fail.  This is
`luhn_check` of `checksum.rs` and the loop of `validate_luhn` in
`validators.rs` (both have the identical algorithm). -/
def luhnSum : List Nat → Bool → Nat
  | [], _ => 0
  | d :: rest, double =>
    (if double then (if d * 2 > 9 then d * 2 - 9 else d * 2) else d) + luhnSum rest (!double)

/-- `luhn_check`: iterate the digits from the rightmost with the alternating
`double` flag starting `false`; fewer than two digits fail. -/
def luhnOk (digits : List Nat) : Bool :=
  if digits.length < 2 then false
  else luhnSum digits.reverse false % 10 = 0

end OpenLabels

namespace Spans

/-- A span as passed to `deduplicate_spans`: `(start, end, entity_type, confidence)`. -/
abbrev SpanC := Nat × Nat × String × ℚ

/-- `start` of a span tuple. -/
def cstart (s : SpanC) : Nat := s.1

/-- `end` of a span tuple. -/
def cstop (s : SpanC) : Nat := s.2.1

/-- `confidence` of a span tuple. -/
def cconf (s : SpanC) : ℚ := s.2.2.2

/-- The comparator `spans[a].0.cmp(&spans[b].0).then(spans[a].1.cmp(&spans[b].1))`
as a boolean "less or equal" on indices (lexicographic on `(start, end)`). -/
def dedupLeB (spans : List SpanC) (a b : Nat) : Bool :=
  let sa := spans.getD a (0, 0, "", 0)
  let sb := spans.getD b (0, 0, "", 0)
  (cstart sa < cstart sb) || (cstart sa = cstart sb && cstop sa ≤ cstop sb)

/-- Pointwise update of the `keep` flag vector (`keep[i] = v`). -/
def setK (keep : Nat → Bool) (i : Nat) (v : Bool) : Nat → Bool :=
  fun x => if x = i then v else keep x

/-- `usize` subtraction with explicit wrap-around modulo `2^64`, the
release-build semantics of `end_j - start_j` in `spans.rs`; a debug build
panics where this wraps, so theorems about the sweep restrict to spans with
`start ≤ end < 2^64`, on which both builds agree with this model. -/
def usizeSub (x y : Nat) : Nat := (x + 2 ^ 64 - y) % 2 ^ 64

/-- Inner sweep of `deduplicate_spans`: scan the sorted indices after `idxI`,
breaking when `start_j >= end_i`, skipping dropped spans, dropping `idxI` and
breaking when `j` wins the comparison, else dropping `j` and continuing. -/
def dedupInner (spans : List SpanC) (idxI : Nat) :
    List Nat → (Nat → Bool) → (Nat → Bool)
  | [], keep => keep
  | idxJ :: rest, keep =>
    let si := spans.getD idxI (0, 0, "", 0)
    let sj := spans.getD idxJ (0, 0, "", 0)
    if cstop si ≤ cstart sj then keep
    else if keep idxJ = false then dedupInner spans idxI rest keep
    else if cconf sj > cconf si ∨
        (cconf sj = cconf si ∧
          usizeSub (cstop sj) (cstart sj) > usizeSub (cstop si) (cstart si)) then
      setK keep idxI false
    else
      dedupInner spans idxI rest (setK keep idxJ false)

/-- Outer loop of `deduplicate_spans` over the sorted index list, skipping
indices already dropped. -/
def dedupOuter (spans : List SpanC) : List Nat → (Nat → Bool) → (Nat → Bool)
  | [], keep => keep
  | idxI :: rest, keep =>
    if keep idxI = false then dedupOuter spans rest keep
    else dedupOuter spans rest (dedupInner spans idxI rest keep)

/-- `deduplicate_spans` of `spans.rs`: sort index array by `(start, end)`,
sweep with keep/drop flags, return kept original indices in ascending order. -/
def deduplicate_spans (spans : List SpanC) : List Nat :=
  if spans.isEmpty then []
  else if spans.length = 1 then [0]
  else
    let sorted := List.insertionSort (fun a b => dedupLeB spans a b = true)
      (List.range spans.length)
    let keep := dedupOuter spans sorted (fun _ => true)
    (List.range spans.length).filter (fun i => keep i)

/-- A span as passed to `check_overlaps`: `(start, end)`. -/
abbrev SpanP := Nat × Nat

/-- Sort comparator of `check_overlaps` (lexicographic `(start, end)` on indices). -/
def coLeB (spans : List SpanP) (a b : Nat) : Bool :=
  let sa := spans.getD a (0, 0)
  let sb := spans.getD b (0, 0)
  (sa.1 < sb.1) || (sa.1 = sb.1 && sa.2 ≤ sb.2)

/-- Emitted pair: original indices, smaller first. -/
def mkPair (i j : Nat) : Nat × Nat := if i < j then (i, j) else (j, i)

/-- Inner sweep of `check_overlaps`: scan forward while `start_j < end_i`,
skipping identical spans when `allow_identical`, emitting the pair otherwise. -/
def coInner (spans : List SpanP) (allow : Bool) (idxI : Nat) :
    List Nat → List (Nat × Nat)
  | [] => []
  | idxJ :: rest =>
    let si := spans.getD idxI (0, 0)
    let sj := spans.getD idxJ (0, 0)
    if si.2 ≤ sj.1 then []
    else if allow && si.1 = sj.1 && si.2 = sj.2 then coInner spans allow idxI rest
    else mkPair idxI idxJ :: coInner spans allow idxI rest

/-- Outer loop of `check_overlaps` over the sorted index list. -/
def coOuter (spans : List SpanP) (allow : Bool) : List Nat → List (Nat × Nat)
  | [] => []
  | idxI :: rest => coInner spans allow idxI rest ++ coOuter spans allow rest

/-- `check_overlaps` of `spans.rs`. -/
def check_overlaps (spans : List SpanP) (allow : Bool) : List (Nat × Nat) :=
  if spans.length < 2 then []
  else
    coOuter spans allow
      (List.insertionSort (fun a b => coLeB spans a b = true) (List.range spans.length))

/-- Half-open interval overlap `[s₁,e₁) ∩ [s₂,e₂) ≠ ∅`. -/
def spansOverlapP (a b : SpanP) : Prop := max a.1 b.1 < min a.2 b.2

instance (a b : SpanP) : Decidable (spansOverlapP a b) := by
  unfold spansOverlapP; infer_instance

end Spans

namespace Scoring

/-- `WEIGHT_SCALE` of `scoring.rs`. -/
def WEIGHT_SCALE : ℚ := 4

/-- `DEFAULT_WEIGHT` of `scoring.rs`. -/
def DEFAULT_WEIGHT : Int := 5

/-- The `ENTITY_WEIGHTS` table of `scoring.rs`. -/
def ENTITY_WEIGHTS : List (String × Int) :=
  [("SSN", 10), ("PASSPORT", 10), ("CREDIT_CARD", 10), ("PASSWORD", 10), ("API_KEY", 10),
   ("PRIVATE_KEY", 10), ("AWS_ACCESS_KEY", 10), ("AWS_SECRET_KEY", 10),
   ("DATABASE_URL", 10), ("GITHUB_TOKEN", 10), ("GITLAB_TOKEN", 10),
   ("SLACK_TOKEN", 10), ("STRIPE_KEY", 10), ("CRYPTO_SEED_PHRASE", 10),
   ("MRN", 9), ("DIAGNOSIS", 9), ("HEALTH_PLAN_ID", 9), ("JWT", 9),
   ("DRIVER_LICENSE", 8), ("NPI", 8), ("DEA", 8), ("TAX_ID", 8), ("MILITARY_ID", 8),
   ("BITCOIN_ADDRESS", 7), ("ETHEREUM_ADDRESS", 7), ("IBAN", 7), ("SWIFT_BIC", 7),
   ("PHONE", 6), ("EMAIL", 6), ("SENDGRID_KEY", 6), ("TWILIO_KEY", 6),
   ("NAME", 5), ("ADDRESS", 5), ("IP_ADDRESS", 5), ("MAC_ADDRESS", 5), ("VIN", 5),
   ("CUSIP", 5), ("ISIN", 5), ("LEI", 5), ("DATE_DOB", 5),
   ("AGE", 4), ("CLASSIFICATION_LEVEL", 4), ("DOD_CONTRACT", 4),
   ("GSA_CONTRACT", 4), ("CAGE_CODE", 4), ("UEI", 4),
   ("DATE", 3), ("ZIP", 3),
   ("CITY", 2), ("STATE", 2), ("COUNTRY", 2), ("TRACKING_NUMBER", 2),
   ("FACILITY", 1), ("ORGANIZATION", 1)]

/-- The `ENTITY_CATEGORIES` table of `scoring.rs`. -/
def ENTITY_CATEGORIES : List (String × String) :=
  [("SSN", "direct_identifier"), ("PASSPORT", "direct_identifier"),
   ("DRIVER_LICENSE", "direct_identifier"), ("MILITARY_ID", "direct_identifier"),
   ("TAX_ID", "direct_identifier"), ("MRN", "direct_identifier"),
   ("STATE_ID", "direct_identifier"),
   ("DIAGNOSIS", "health_info"), ("MEDICATION", "health_info"),
   ("HEALTH_PLAN_ID", "health_info"), ("NPI", "health_info"),
   ("DEA", "health_info"), ("LAB_TEST", "health_info"), ("PROCEDURE", "health_info"),
   ("CREDIT_CARD", "financial"), ("IBAN", "financial"), ("SWIFT_BIC", "financial"),
   ("ACCOUNT_NUMBER", "financial"), ("CUSIP", "financial"), ("ISIN", "financial"),
   ("BITCOIN_ADDRESS", "financial"), ("ETHEREUM_ADDRESS", "financial"),
   ("CRYPTO_SEED_PHRASE", "financial"),
   ("EMAIL", "contact"), ("PHONE", "contact"), ("ADDRESS", "contact"),
   ("ZIP", "contact"), ("FAX", "contact"),
   ("PASSWORD", "credential"), ("API_KEY", "credential"), ("PRIVATE_KEY", "credential"),
   ("JWT", "credential"), ("AWS_ACCESS_KEY", "credential"), ("AWS_SECRET_KEY", "credential"),
   ("GITHUB_TOKEN", "credential"), ("GITLAB_TOKEN", "credential"),
   ("SLACK_TOKEN", "credential"), ("STRIPE_KEY", "credential"), ("DATABASE_URL", "credential"),
   ("NAME", "quasi_identifier"), ("DATE_DOB", "quasi_identifier"),
   ("AGE", "quasi_identifier"), ("DATE", "quasi_identifier"),
   ("CLASSIFICATION_LEVEL", "classification_marking"),
   ("CLASSIFICATION_MARKING", "classification_marking"),
   ("SCI_MARKING", "classification_marking"),
   ("DISSEMINATION_CONTROL", "classification_marking")]

/-- The `ENTITY_ALIASES` table of `scoring.rs`. -/
def ENTITY_ALIASES : List (String × String) :=
  [("US_SSN", "SSN"), ("SOCIAL_SECURITY", "SSN"), ("SOCIALSECURITYNUMBER", "SSN"),
   ("PER", "NAME"), ("PERSON", "NAME"), ("PATIENT", "NAME_PATIENT"),
   ("DOCTOR", "NAME_PROVIDER"), ("PHYSICIAN", "NAME_PROVIDER"), ("HCW", "NAME_PROVIDER"),
   ("DOB", "DATE_DOB"), ("BIRTHDAY", "DATE_DOB"), ("DATEOFBIRTH", "DATE_DOB"),
   ("DATE_OF_BIRTH", "DATE_DOB"), ("BIRTH_DATE", "DATE_DOB"), ("BIRTHDATE", "DATE_DOB"),
   ("CC", "CREDIT_CARD"), ("CREDITCARD", "CREDIT_CARD"), ("CREDITCARDNUMBER", "CREDIT_CARD"),
   ("CREDIT_CARD_NUMBER", "CREDIT_CARD"),
   ("TELEPHONE", "PHONE"), ("TEL", "PHONE"), ("MOBILE", "PHONE"), ("CELL", "PHONE"),
   ("PHONENUMBER", "PHONE"), ("PHONE_NUMBER", "PHONE"), ("US_PHONE_NUMBER", "PHONE"),
   ("EMAILADDRESS", "EMAIL"), ("EMAIL_ADDRESS", "EMAIL"),
   ("STREET_ADDRESS", "ADDRESS"), ("STREET", "ADDRESS"),
   ("IP", "IP_ADDRESS"), ("IPADDRESS", "IP_ADDRESS"), ("IPV4", "IP_ADDRESS"),
   ("IPV6", "IP_ADDRESS"),
   ("MEDICAL_RECORD", "MRN"), ("MEDICALRECORD", "MRN"),
   ("LICENSE", "DRIVER_LICENSE"), ("US_DRIVER_LICENSE", "DRIVER_LICENSE"),
   ("DRIVERSLICENSE", "DRIVER_LICENSE"),
   ("US_PASSPORT", "PASSPORT"), ("PASSPORT_NUMBER", "PASSPORT"),
   ("ZIPCODE", "ZIP"), ("ZIP_CODE", "ZIP"), ("POSTCODE", "ZIP"), ("LOCATION_ZIP", "ZIP")]

/-- The ordered `CO_OCCURRENCE_RULES` table: `(required_categories, multiplier, rule_name)`. -/
def CO_OCCURRENCE_RULES : List (List String × ℚ × String) :=
  [(["direct_identifier", "health_info"], 2, "hipaa_phi"),
   (["direct_identifier", "financial"], 9/5, "identity_theft"),
   (["credential"], 3/2, "credential_exposure"),
   (["quasi_identifier", "health_info"], 3/2, "phi_without_id"),
   (["contact", "health_info"], 7/5, "phi_with_contact"),
   (["direct_identifier", "quasi_identifier", "financial"], 11/5, "full_identity"),
   (["classification_marking"], 5/2, "classified_data")]

/-- The `EXPOSURE_MULTIPLIERS` table. -/
def EXPOSURE_MULTIPLIERS : List (String × ℚ) :=
  [("PRIVATE", 1), ("INTERNAL", 6/5), ("ORG_WIDE", 9/5), ("PUBLIC", 5/2)]

/-- Rust `str::to_uppercase`, restricted to its ASCII fragment (it agrees with
this on every string the theorems below evaluate it on). -/
def toUpperStr (s : String) : String := ⟨s.data.map Char.toUpper⟩

/-- `normalize_entity`: upper-case, then apply the alias table. -/
def normalize_entity (entity_type : String) : String :=
  let upper := toUpperStr entity_type
  match ENTITY_ALIASES.lookup upper with
  | some canonical => canonical
  | none => upper

/-- `get_weight`. -/
def get_weight (entity_type : String) : Int :=
  (ENTITY_WEIGHTS.lookup (normalize_entity entity_type)).getD DEFAULT_WEIGHT

/-- `get_category`. -/
def get_category (entity_type : String) : String :=
  (ENTITY_CATEGORIES.lookup (normalize_entity entity_type)).getD "unknown"

/-- `get_categories`: the set (modelled as a deduplicated list; only membership
matters) of categories other than `"unknown"` present among the entity types. -/
def get_categories (entities : List (String × Int)) : List String :=
  ((entities.map (fun e => get_category e.1)).filter (fun c => c ≠ "unknown")).dedup

/-- The rule fold of `get_co_occurrence_multiplier`: a rule fires iff every
required category is present; a fired multiplier strictly above the maximum
replaces it and resets the triggered-rule list, one equal to the maximum (the
code compares `|mult - max| < f64::EPSILON`, which on the exact rule-table
literals is equality) is appended. -/
def coFold (cats : List String) :
    List (List String × ℚ × String) → ℚ × List String → ℚ × List String
  | [], st => st
  | (req, mult, name) :: rest, (mx, tr) =>
    if req.all (fun c => cats.contains c) then
      if mult > mx then coFold cats rest (mult, [name])
      else if mult = mx then coFold cats rest (mx, tr ++ [name])
      else coFold cats rest (mx, tr)
    else coFold cats rest (mx, tr)

/-- `get_co_occurrence_multiplier`. -/
def get_co_occurrence_multiplier (entities : List (String × Int)) : ℚ × List String :=
  if entities = [] then (1, [])
  else coFold (get_categories entities) CO_OCCURRENCE_RULES (1, [])

/-- Rust `f64::round`: round half away from zero. -/
def roundF64 (x : ℚ) : Int := if 0 ≤ x then ⌊x + 1/2⌋ else ⌈x - 1/2⌉

/-- `score_to_tier` of `scoring.rs`. -/
def score_to_tier (score : ℚ) : String :=
  if 80 ≤ score then "CRITICAL"
  else if 55 ≤ score then "HIGH"
  else if 31 ≤ score then "MEDIUM"
  else if 11 ≤ score then "LOW"
  else "MINIMAL"

/-- The result record of `score_internal` (`ScoringResultInternal`). -/
structure ScoringResult where
  score : Int
  tier : String
  content_score : ℚ
  exposure_multiplier : ℚ
  co_occurrence_multiplier : ℚ
  co_occurrence_rules : List String
  categories : List String
  exposure : String
deriving DecidableEq, Repr

/-- The content-score sum of `score_internal`: for each `(type, count)` entry,
`weight × WEIGHT_SCALE × (1 + ln(max(count,1))) × confidence`, summed.
`lnF` is the model of the `f64::ln` intrinsic. -/
def base_score (lnF : Int → ℚ) (entities : List (String × Int)) (confidence : ℚ) : ℚ :=
  (entities.map (fun tc =>
    ((get_weight tc.1 : ℚ) * WEIGHT_SCALE) * (1 + lnF (max tc.2 1)) * confidence)).sum

/-- The pre-rounding final score computed by `score_internal`:
`min(100, min(100, base × co_mult) × exposure_mult)`, `0` for empty entities. -/
def final_score_val (lnF : Int → ℚ) (entities : List (String × Int))
    (exposure : String) (confidence : ℚ) : ℚ :=
  if entities = [] then 0
  else
    let co_mult := (get_co_occurrence_multiplier entities).1
    let content := min (base_score lnF entities confidence * co_mult) 100
    let exp_mult := (EXPOSURE_MULTIPLIERS.lookup (toUpperStr exposure)).getD 1
    min (content * exp_mult) 100

/-- `score_internal` of `scoring.rs` (the body of `score_entities`). -/
def score_internal (lnF : Int → ℚ) (entities : List (String × Int))
    (exposure : String) (confidence : ℚ) : ScoringResult :=
  if entities = [] then
    { score := 0, tier := "MINIMAL", content_score := 0, exposure_multiplier := 1,
      co_occurrence_multiplier := 1, co_occurrence_rules := [],
      categories := [], exposure := toUpperStr exposure }
  else
    let co := get_co_occurrence_multiplier entities
    let content := min (base_score lnF entities confidence * co.1) 100
    let exp_upper := toUpperStr exposure
    let exp_mult := (EXPOSURE_MULTIPLIERS.lookup exp_upper).getD 1
    let fs := min (content * exp_mult) 100
    { score := roundF64 fs, tier := score_to_tier fs,
      content_score := (roundF64 (content * 10) : ℚ) / 10,
      exposure_multiplier := exp_mult, co_occurrence_multiplier := co.1,
      co_occurrence_rules := co.2, categories := get_categories entities,
      exposure := exp_upper }

/-- Model of the `f64::ln` intrinsic used for the concrete evaluations below.
Every concrete entity map evaluated in this development has all counts equal
to `1`, and `ln 1.0 = 0.0` exactly in IEEE 754; the general theorems are
quantified over the `lnF` parameter and do not depend on this function. -/
def lnModel : Int → ℚ := fun _ => 0

end Scoring

namespace Checksum

open OpenLabels

/-- `extract_digits` of `checksum.rs` (keep ASCII digits), composed with the
digit-value reading every consumer immediately performs: the digit string is
modelled as its list of digit values. -/
def extract_digits (text : List Char) : List Nat :=
  (text.filter isAsciiDigit).map dval

/-- Rust `char::is_ascii_alphabetic`. -/
def isAsciiAlpha (c : Char) : Bool :=
  (65 ≤ c.toNat && c.toNat ≤ 90) || (97 ≤ c.toNat && c.toNat ≤ 122)

/-- `checksum_credit_card` of `checksum.rs`: 13–19 extracted digits, issuer
prefix table (`starts_with` tests and parsed 2/3/4-digit prefixes), then Luhn;
a valid prefix with failing Luhn is still reported valid at confidence 0.87. -/
def checksum_credit_card (cc : List Char) : Bool × ℚ :=
  let d := extract_digits cc
  if d.length < 13 ∨ 19 < d.length then (false, 0)
  else
    let prefix2 := natOfDigits (d.take 2)
    let prefix3 := if 3 ≤ d.length then natOfDigits (d.take 3) else 0
    let prefix4 := if 4 ≤ d.length then natOfDigits (d.take 4) else 0
    let valid_prefix :=
      d.take 1 = [4]
      ∨ (51 ≤ prefix2 ∧ prefix2 ≤ 55)
      ∨ (2221 ≤ prefix4 ∧ prefix4 ≤ 2720)
      ∨ d.take 2 = [3, 4] ∨ d.take 2 = [3, 7]
      ∨ d.take 4 = [6, 0, 1, 1]
      ∨ d.take 2 = [6, 5]
      ∨ (644 ≤ prefix3 ∧ prefix3 ≤ 649)
      ∨ d.take 2 = [3, 5]
      ∨ d.take 2 = [3, 6]
      ∨ (300 ≤ prefix3 ∧ prefix3 ≤ 305)
      ∨ d.take 2 = [3, 8] ∨ d.take 2 = [3, 9]
    if ¬ valid_prefix then (false, 0)
    else if ¬ (luhnOk d = true) then (true, 87/100)
    else (true, 99/100)

/-- The credit-card acceptance rule exactly as the specification words it:
13–19 digits, issuer prefix table given numerically (Visa 4; Mastercard 51–55
or 2221–2720; Amex 34/37; Discover 6011, 65, 644–649; JCB 35; Diners 36,
300–305, 38, 39); invalid prefix rejects with confidence 0, valid prefix with
failing Luhn is valid at 0.87, with passing Luhn valid at 0.99. -/
def ccSpec (cc : List Char) : Bool × ℚ :=
  let d := extract_digits cc
  if 13 ≤ d.length ∧ d.length ≤ 19 ∧
      (natOfDigits (d.take 1) = 4
       ∨ (51 ≤ natOfDigits (d.take 2) ∧ natOfDigits (d.take 2) ≤ 55)
       ∨ (2221 ≤ natOfDigits (d.take 4) ∧ natOfDigits (d.take 4) ≤ 2720)
       ∨ natOfDigits (d.take 2) = 34 ∨ natOfDigits (d.take 2) = 37
       ∨ natOfDigits (d.take 4) = 6011 ∨ natOfDigits (d.take 2) = 65
       ∨ (644 ≤ natOfDigits (d.take 3) ∧ natOfDigits (d.take 3) ≤ 649)
       ∨ natOfDigits (d.take 2) = 35
       ∨ natOfDigits (d.take 2) = 36
       ∨ (300 ≤ natOfDigits (d.take 3) ∧ natOfDigits (d.take 3) ≤ 305)
       ∨ natOfDigits (d.take 2) = 38 ∨ natOfDigits (d.take 2) = 39) then
    (if luhnOk d then (true, 99/100) else (true, 87/100))
  else (false, 0)

/-- Decimal digits of a natural number, most significant first
(the model of pushing `value.to_string()`). -/
def digitsOfNat (n : Nat) : List Nat := (Nat.toDigits 10 n).map dval

/-- The letter-to-digits conversion loop of `checksum_iban`: ASCII digits kept,
ASCII letters replaced by the decimal digits of `c - 'A' + 10`, any other
character aborting with `none` (the code returns `(false, 0.0)`). -/
def ibanDigits : List Char → Option (List Nat)
  | [] => some []
  | c :: rest =>
    if isAsciiDigit c then (ibanDigits rest).map (fun ds => dval c :: ds)
    else if isAsciiAlpha c then
      (ibanDigits rest).map (fun ds => digitsOfNat (c.toNat - 65 + 10) ++ ds)
    else none

/-- `checksum_iban` of `checksum.rs`.  The length check is on the UTF-8 *byte*
length (`str::len`) and `&cleaned[4..]` / `&cleaned[..4]` slice at byte
index 4, which panics (`Except.error`) when byte 4 is not a character
boundary.  Upper-casing is modelled by `Char.toUpper` (ASCII; it agrees with
Rust `to_uppercase` on every character these theorems evaluate). -/
def checksum_iban (iban : List Char) : Except Unit (Bool × ℚ) :=
  let cleaned := (iban.map Char.toUpper).filter (fun c => c ≠ ' ')
  if byteLen cleaned < 15 ∨ 34 < byteLen cleaned then .ok (false, 0)
  else
    match byteSplitAt 4 cleaned with
    | none => .error ()
    | some (pre, post) =>
      match ibanDigits (post ++ pre) with
      | none => .ok (false, 0)
      | some ds =>
        if ds.foldl (fun r dgt => (r * 10 + dgt) % 97) 0 = 1 then .ok (true, 99/100)
        else .ok (false, 0)

end Checksum

namespace Openrisk

open OpenLabels

/-- Abstract interface of a compiled regex of the external `regex` crate:
`findIter` returns the leftmost, non-overlapping whole-match spans of
`find_iter`; `capturesGroup g` returns, for each successive match of
`captures_iter`, the span of capture group `g` (`none` when the group did not
participate in that match; group `0` is the whole match). -/
structure CompiledRegex where
  findIter : List Char → List (Nat × Nat)
  capturesGroup : Nat → List Char → List (Option (Nat × Nat))

/-- `PatternMetadata` of `matcher.rs`. -/
structure PatternMetadata where
  entity_type : String
  confidence : ℚ
  group_idx : Nat
deriving DecidableEq, Repr

/-- `CompiledPatterns` of `matcher.rs`.  The `RegexSet` is not stored
separately: it is built from exactly the successfully compiled patterns, and
`RegexSet::matches` is modelled below through the member regexes. -/
structure CompiledPatterns where
  individual_regexes : List CompiledRegex
  metadata : List PatternMetadata
  index_map : List (Nat × Nat)
  prefilter : Option (List (List Char))

/-- `RawMatch` of `matcher.rs`. -/
structure RawMatch where
  pattern_id : Nat
  start : Nat
  end_ : Nat
  text : List Char
  entity_type : String
  confidence : ℚ
deriving DecidableEq, Repr

def defaultRegex : CompiledRegex := ⟨fun _ => [], fun _ _ => []⟩

def defaultMeta : PatternMetadata := ⟨"", 0, 0⟩

/-- The hardcoded Aho–Corasick prefilter literal table of `compile_patterns`
(`"@" "-" "." "/" ":" " "`), independent of the pattern set. -/
def prefilterPatterns : List (List Char) :=
  (["@", "-", ".", "/", ":", " "] : List String).map String.data

/-- `compile_patterns` of `matcher.rs`: a pattern whose regex fails to compile
(`none` in the input, compilation being performed by the external crate) is
skipped; successfully compiled patterns keep their relative order, the
metadata table is index-aligned with the regex array, `index_map` maps
original indices to new ones, and the prefilter is always the fixed literal
automaton. -/
def compile_patterns (patterns : List (Option CompiledRegex × String × ℚ × Nat)) :
    CompiledPatterns :=
  { individual_regexes := patterns.filterMap (fun p => p.1),
    metadata := patterns.filterMap
      (fun p => p.1.map (fun _ => ⟨p.2.1, p.2.2.1, p.2.2.2⟩)),
    index_map :=
      ((patterns.enum.filter (fun q => q.2.1.isSome)).map Prod.fst).zip
        (List.range (patterns.filterMap (fun p => p.1)).length),
    prefilter := some prefilterPatterns }

/-- Substring containment, the model of `AhoCorasick::is_match` for a single
literal needle. -/
def containsSub (needle : List Char) : List Char → Bool
  | [] => needle.isPrefixOf []
  | c :: rest => needle.isPrefixOf (c :: rest) || containsSub needle rest

/-- `PatternMatcher::might_contain_patterns`: `true` iff some prefilter literal
occurs in the text (or there is no prefilter). -/
def might_contain_patterns (c : CompiledPatterns) (text : List Char) : Bool :=
  match c.prefilter with
  | some lits => lits.any (fun l => containsSub l text)
  | none => true

/-- `find_matches_impl` of `matcher.rs`: `RegexSet::matches` gives the ids of
the patterns matching anywhere (modelled as a nonempty `findIter`); each such
pattern is re-scanned, via capture group `group_idx` when it is positive and
whole matches otherwise, and spans whose text is empty or entirely whitespace
are dropped. -/
def find_matches_impl (c : CompiledPatterns) (text : List Char) : List RawMatch :=
  let matching := (List.range c.individual_regexes.length).filter
    (fun i => ¬((c.individual_regexes.getD i defaultRegex).findIter text).isEmpty)
  (matching.map (fun set_idx =>
    let regex := c.individual_regexes.getD set_idx defaultRegex
    let meta := c.metadata.getD set_idx defaultMeta
    if 0 < meta.group_idx then
      (regex.capturesGroup meta.group_idx text).filterMap (fun og =>
        og.bind (fun sp =>
          let mt := sliceList text sp.1 sp.2
          if mt ≠ [] ∧ allWhitespace mt = false then
            some ⟨set_idx, sp.1, sp.2, mt, meta.entity_type, meta.confidence⟩
          else none))
    else
      (regex.findIter text).filterMap (fun sp =>
        let mt := sliceList text sp.1 sp.2
        if mt ≠ [] ∧ allWhitespace mt = false then
          some ⟨set_idx, sp.1, sp.2, mt, meta.entity_type, meta.confidence⟩
        else none))).flatten

/-- `find_iter` semantics of the concrete regex `\d{16}` (the repository's own
test pattern for `CREDIT_CARD`): at each position, 16 consecutive ASCII digits
match and scanning resumes after the match, otherwise scanning advances one
character.  The fuel argument (instantiated with the text length, an upper
bound on the number of steps) keeps the recursion structural. -/
def digit16Go : Nat → Nat → List Char → List (Nat × Nat)
  | 0, _, _ => []
  | _, _, [] => []
  | fuel + 1, pos, c :: rest =>
    if 16 ≤ (c :: rest).length ∧ ((c :: rest).take 16).all isAsciiDigit then
      (pos, pos + 16) :: digit16Go fuel (pos + 16) ((c :: rest).drop 16)
    else digit16Go fuel (pos + 1) rest

/-- The compiled form of the pattern `\d{16}`. -/
def digit16CR : CompiledRegex :=
  { findIter := fun cs => digit16Go cs.length 0 cs,
    capturesGroup := fun g cs =>
      (digit16Go cs.length 0 cs).map (fun sp => if g = 0 then some sp else none) }

/-- `find_iter` semantics of the concrete regex `" +"` (one or more spaces):
maximal runs of spaces, fuelled like `digit16Go`. -/
def spaceGo : Nat → Nat → List Char → List (Nat × Nat)
  | 0, _, _ => []
  | _, _, [] => []
  | fuel + 1, pos, c :: rest =>
    if c = ' ' then
      let k := (rest.takeWhile (fun x => x = ' ')).length
      (pos, pos + 1 + k) :: spaceGo fuel (pos + 1 + k) (rest.drop k)
    else spaceGo fuel (pos + 1) rest

/-- The compiled form of the pattern `" +"`. -/
def spaceCR : CompiledRegex :=
  { findIter := fun cs => spaceGo cs.length 0 cs,
    capturesGroup := fun g cs =>
      (spaceGo cs.length 0 cs).map (fun sp => if g = 0 then some sp else none) }

end Openrisk

namespace CoreLib

open OpenLabels

/-!
The second matcher, `src/openlabels/core/_rust/src/lib.rs`, together with the
validators of `src/openlabels/core/_rust/src/validators.rs` that its
`validate` dispatcher calls.  `validate_iban` and `validate_cusip` slice by
UTF-8 byte index / index a `Vec<char>` at fixed positions after a *byte*
length check, so they can panic; they and everything calling them live in
`Except Unit`.
-/

/-- Rust `char::is_alphanumeric`, restricted to its ASCII fragment (the
characters every theorem below evaluates it on). -/
def rustIsAlnum (c : Char) : Bool :=
  Checksum.isAsciiAlpha c || isAsciiDigit c

/-- `validate_luhn` of `validators.rs`. -/
def validate_luhn (text : List Char) : Bool :=
  luhnOk ((text.filter isAsciiDigit).map dval)

/-- `validate_ssn` of `validators.rs`. -/
def validate_ssn (text : List Char) : Bool :=
  let digits := (text.filter isAsciiDigit).map dval
  if digits.length ≠ 9 then false
  else
    let area := natOfDigits (digits.take 3)
    let group := natOfDigits ((digits.drop 3).take 2)
    let serial := natOfDigits (digits.drop 5)
    if area = 0 ∨ area = 666 ∨ (900 ≤ area ∧ area ≤ 999) then false
    else if group = 0 ∨ serial = 0 then false
    else true

/-- `validate_phone` of `validators.rs`. -/
def validate_phone (text : List Char) : Bool :=
  let n := (text.filter isAsciiDigit).length
  if 10 ≤ n ∧ n ≤ 15 then true else false

/-- `validate_email` of `validators.rs`. -/
def validate_email (text : List Char) : Bool :=
  let parts := text.splitOn '@'
  if parts.length ≠ 2 then false
  else
    let lpart := parts.getD 0 []
    let domain := parts.getD 1 []
    if lpart ≠ [] ∧ domain ≠ [] ∧ domain.contains '.' ∧
        domain.head? ≠ some '.' ∧ domain.getLast? ≠ some '.' then true
    else false

/-- Rust `str::parse::<u32>`: optional leading `+`, then one or more ASCII
digits, value within `u32`. -/
def parseU32 (l : List Char) : Option Nat :=
  let body := if l.head? = some '+' then l.drop 1 else l
  if body ≠ [] ∧ body.all isAsciiDigit ∧ natOfDigits (body.map dval) ≤ 4294967295 then
    some (natOfDigits (body.map dval))
  else none

/-- `validate_ipv4` of `validators.rs`. -/
def validate_ipv4 (text : List Char) : Bool :=
  let parts := text.splitOn '.'
  if parts.length ≠ 4 then false
  else parts.all (fun p =>
    match parseU32 p with
    | some n => decide (n ≤ 255)
    | none => false)

/-- `mod97` of `validators.rs` on the digit-value list. -/
def mod97 (ds : List Nat) : Nat := ds.foldl (fun r d => (r * 10 + d) % 97) 0

/-- The letter-to-number conversion of `validate_iban`: an ASCII digit maps to
itself, any other character to the decimal digits of `c - 'A' + 10` (the
cleaned string holds only upper-cased alphanumeric characters at this point). -/
def ibanNumeric (l : List Char) : List Nat :=
  (l.map (fun c =>
    if isAsciiDigit c then [dval c]
    else Checksum.digitsOfNat (c.toNat - 65 + 10))).flatten

/-- `validate_iban` of `validators.rs`: filter alphanumeric, upper-case, check
the UTF-8 byte length is in 15–34, move the first 4 bytes to the end (a panic
when byte 4 is not a character boundary), convert letters, mod-97 check. -/
def validate_iban (text : List Char) : Except Unit Bool :=
  let cleaned := (text.filter rustIsAlnum).map Char.toUpper
  if byteLen cleaned < 15 ∨ 34 < byteLen cleaned then .ok false
  else
    match byteSplitAt 4 cleaned with
    | none => .error ()
    | some (pre, post) => .ok (decide (mod97 (ibanNumeric (post ++ pre)) = 1))

/-- `validate_npi` of `validators.rs`: 10 digits, Luhn loop over `80840`
prefixed digits. -/
def validate_npi (text : List Char) : Bool :=
  let digits := (text.filter isAsciiDigit).map dval
  if digits.length ≠ 10 then false
  else luhnSum ([8, 0, 8, 4, 0] ++ digits).reverse false % 10 = 0

/-- `validate_cusip` of `validators.rs`: filter alphanumeric, upper-case,
require UTF-8 byte length 9, then index `chars[..8]` and `chars[8]` of the
`Vec<char>` (a panic when fewer than 9 characters remain, possible because the
length check counted bytes). -/
def validate_cusip (text : List Char) : Except Unit Bool :=
  let cleaned := (text.filter rustIsAlnum).map Char.toUpper
  if byteLen cleaned ≠ 9 then .ok false
  else if cleaned.length < 8 then .error ()
  else
    let sum := ((cleaned.take 8).enum.map (fun ic =>
      let val := if isAsciiDigit ic.2 then dval ic.2 else ic.2.toNat - 65 + 10
      let v := if ic.1 % 2 = 1 then val * 2 else val
      v / 10 + v % 10)).sum
    let check := (10 - sum % 10) % 10
    match cleaned.get? 8 with
    | none => .error ()
    | some c8 =>
      .ok (decide ((if isAsciiDigit c8 then some (dval c8) else none) = some check))

/-- `validate_isin` of `validators.rs`: filter alphanumeric, upper-case,
UTF-8 byte length 12, first two characters ASCII letters, convert all
characters to digits (letters as `c - 'A' + 10`), Luhn loop. -/
def validate_isin (text : List Char) : Bool :=
  let cleaned := (text.filter rustIsAlnum).map Char.toUpper
  if byteLen cleaned ≠ 12 then false
  else if ¬(Checksum.isAsciiAlpha (cleaned.getD 0 '\x00') = true ∧
      Checksum.isAsciiAlpha (cleaned.getD 1 '\x00') = true) then false
  else luhnSum (ibanNumeric cleaned).reverse false % 10 = 0

/-- The `validate` dispatcher of `lib.rs`: run the named validator, return
`(is_valid, confidence_boost)`; an unknown validator name is a permissive
pass-through `(true, 0.0)`. -/
def validate (text : List Char) (validator : String) : Except Unit (Bool × ℚ) :=
  if validator = "luhn" then
    .ok (if validate_luhn text then (true, 15/100) else (false, 0))
  else if validator = "ssn" then
    .ok (if validate_ssn text then (true, 10/100) else (false, 0))
  else if validator = "phone" then
    .ok (if validate_phone text then (true, 5/100) else (false, 0))
  else if validator = "email" then
    .ok (if validate_email text then (true, 5/100) else (false, 0))
  else if validator = "ipv4" then
    .ok (if validate_ipv4 text then (true, 5/100) else (false, 0))
  else if validator = "iban" then
    (validate_iban text).map (fun v => if v then (true, 15/100) else (false, 0))
  else if validator = "npi" then
    .ok (if validate_npi text then (true, 15/100) else (false, 0))
  else if validator = "cusip" then
    (validate_cusip text).map (fun v => if v then (true, 15/100) else (false, 0))
  else if validator = "isin" then
    .ok (if validate_isin text then (true, 15/100) else (false, 0))
  else .ok (true, 0)

/-- `PatternInfo` of `lib.rs`. -/
structure PatternInfo where
  name : String
  regex : Openrisk.CompiledRegex
  validator : Option String
  base_confidence : ℚ

/-- `RawMatch` of `lib.rs`. -/
structure RawMatchL where
  pattern_name : String
  start : Nat
  end_ : Nat
  matched_text : List Char
  confidence : ℚ
  validator : Option String
deriving DecidableEq, Repr

/-- The per-pattern match loop of `PatternMatcher::find_matches` in `lib.rs`:
for each regex match, run the validator (if any); a rejected candidate is
dropped, an accepted one is pushed with `min(base + boost, 1.0)`.  Note there
is no empty/whitespace filtering in this matcher. -/
def processMatches (p : PatternInfo) (text : List Char) :
    List (Nat × Nat) → Except Unit (List RawMatchL)
  | [] => .ok []
  | sp :: rest => do
    let mt := sliceList text sp.1 sp.2
    let vr ← match p.validator with
      | some v => validate mt v
      | none => Except.ok (true, (0 : ℚ))
    let tail ← processMatches p text rest
    if vr.1 then
      .ok (⟨p.name, sp.1, sp.2, mt, min (p.base_confidence + vr.2) 1, p.validator⟩ :: tail)
    else .ok tail

/-- The outer pattern loop of `PatternMatcher::find_matches`. -/
def fmAux (text : List Char) : List PatternInfo → Except Unit (List RawMatchL)
  | [] => .ok []
  | p :: rest => do
    let ms ← processMatches p text (p.regex.findIter text)
    let tail ← fmAux text rest
    .ok (ms ++ tail)

/-- `PatternMatcher::find_matches` of `lib.rs`: `RegexSet::matches` selects the
patterns matching anywhere, then each is re-scanned and validated. -/
def find_matches (patterns : List PatternInfo) (text : List Char) :
    Except Unit (List RawMatchL) :=
  fmAux text (patterns.filter (fun p => ¬(p.regex.findIter text).isEmpty))

end CoreLib

/-! ## Theorems -/

/-- **C2** (code bug): the literal pre-filter of `matcher.rs` is the fixed
table `@ - . / : space`, not literals proven necessary for the compiled
patterns.  For the repository's own test pattern `\d{16}` (CREDIT_CARD) and
the text `"4532015112830366"`, `might_contain_patterns` answers `false` —
documented as "definitely not" a match — while `find_matches` returns a
CREDIT_CARD match, so a `false` answer is not a guaranteed negative. -/
theorem matcher_prefilter_false_negative_bug :
    Openrisk.might_contain_patterns
        (Openrisk.compile_patterns [(some Openrisk.digit16CR, "CREDIT_CARD", 1, 0)])
        "4532015112830366".data = false
    ∧ Openrisk.find_matches_impl
        (Openrisk.compile_patterns [(some Openrisk.digit16CR, "CREDIT_CARD", 1, 0)])
        "4532015112830366".data =
      [⟨0, 0, 16, "4532015112830366".data, "CREDIT_CARD", 1⟩] := by
  constructor <;> decide

/-- **C8** (code bug): `checksum_iban` panics instead of rejecting on
well-formed UTF-8 input: five Euro signs survive cleaning with UTF-8 byte
length 15, pass the 15–34 length check, and then `&cleaned[4..]` slices at
byte index 4, which is not a character boundary. -/
theorem checksum_iban_panic_on_multibyte_utf8 :
    Checksum.checksum_iban "€€€€€".data = .error () := by
  rfl

/-- **C9**: the `validate` dispatcher of `lib.rs` treats every validator name
outside its recognized set as a permissive pass-through: the candidate is
accepted (`true`) with confidence boost `0`, so it is never dropped for having
an unrecognized validator name. -/
theorem validate_unknown_validator_passthrough (text : List Char) (v : String)
    (h : v ∉ (["luhn", "ssn", "phone", "email", "ipv4", "iban", "npi", "cusip",
      "isin"] : List String)) :
    CoreLib.validate text v = .ok (true, 0) := by
  simp only [List.mem_cons, List.not_mem_nil, or_false, not_or] at h
  obtain ⟨h1, h2, h3, h4, h5, h6, h7, h8, h9⟩ := h
  simp [CoreLib.validate, h1, h2, h3, h4, h5, h6, h7, h8, h9]

/-- Witness for `validate_unknown_validator_passthrough` at the concrete
validator name `"frobnicate"`. -/
theorem validate_unknown_validator_passthrough_witness :
    ("frobnicate" ∉ (["luhn", "ssn", "phone", "email", "ipv4", "iban", "npi",
      "cusip", "isin"] : List String))
    ∧ CoreLib.validate "4532015112830366".data "frobnicate" = .ok (true, 0) :=
  ⟨by decide, validate_unknown_validator_passthrough _ _ (by decide)⟩

lemma extract_digits_le_nine (s : List Char) : ∀ v ∈ Checksum.extract_digits s, v ≤ 9 := by
  intro v hv
  unfold Checksum.extract_digits at hv
  rw [List.mem_map] at hv
  obtain ⟨c, hc, rfl⟩ := hv
  rw [List.mem_filter] at hc
  have h := hc.2
  unfold OpenLabels.isAsciiDigit at h
  simp only [Bool.and_eq_true, decide_eq_true_eq] at h
  unfold OpenLabels.dval
  omega

/-- Helper for C7: with single-digit bounds, the prefix table as the code tests
it (leading-digit-list equalities) coincides with the table as the
specification words it (numeric prefix values). -/
theorem ccPrefixIff (a b c e : Nat) (ha : a ≤ 9) (hb : b ≤ 9) (hc : c ≤ 9) (he : e ≤ 9) :
    (a = 4 ∨
      51 ≤ 10 * a + b ∧ 10 * a + b ≤ 55 ∨
      2221 ≤ 1000 * a + 100 * b + 10 * c + e ∧ 1000 * a + 100 * b + 10 * c + e ≤ 2720 ∨
      a = 3 ∧ b = 4 ∨
      a = 3 ∧ b = 7 ∨
      a = 6 ∧ b = 0 ∧ c = 1 ∧ e = 1 ∨
      a = 6 ∧ b = 5 ∨
      644 ≤ 100 * a + 10 * b + c ∧ 100 * a + 10 * b + c ≤ 649 ∨
      a = 3 ∧ b = 5 ∨
      a = 3 ∧ b = 6 ∨
      300 ≤ 100 * a + 10 * b + c ∧ 100 * a + 10 * b + c ≤ 305 ∨
      a = 3 ∧ b = 8 ∨ a = 3 ∧ b = 9)
    ↔
    (a = 4 ∨
      51 ≤ 10 * a + b ∧ 10 * a + b ≤ 55 ∨
      2221 ≤ 1000 * a + 100 * b + 10 * c + e ∧ 1000 * a + 100 * b + 10 * c + e ≤ 2720 ∨
      10 * a + b = 34 ∨
      10 * a + b = 37 ∨
      1000 * a + 100 * b + 10 * c + e = 6011 ∨
      10 * a + b = 65 ∨
      644 ≤ 100 * a + 10 * b + c ∧ 100 * a + 10 * b + c ≤ 649 ∨
      10 * a + b = 35 ∨
      10 * a + b = 36 ∨
      300 ≤ 100 * a + 10 * b + c ∧ 100 * a + 10 * b + c ≤ 305 ∨
      10 * a + b = 38 ∨ 10 * a + b = 39) := by
  constructor
  all_goals rintro (h | h | h | h | h | h | h | h | h | h | h | h | h)
  · exact (Or.inl (by omega))
  · exact (Or.inr (Or.inl (by omega)))
  · exact (Or.inr (Or.inr (Or.inl (by omega))))
  · exact (Or.inr (Or.inr (Or.inr (Or.inl (by omega)))))
  · exact (Or.inr (Or.inr (Or.inr (Or.inr (Or.inl (by omega))))))
  · exact (Or.inr (Or.inr (Or.inr (Or.inr (Or.inr (Or.inl (by omega)))))))
  · exact (Or.inr (Or.inr (Or.inr (Or.inr (Or.inr (Or.inr (Or.inl (by omega))))))))
  · exact (Or.inr (Or.inr (Or.inr (Or.inr (Or.inr (Or.inr (Or.inr (Or.inl (by omega)))))))))
  · exact (Or.inr (Or.inr (Or.inr (Or.inr (Or.inr (Or.inr (Or.inr (Or.inr (Or.inl (by omega))))))))))
  · exact (Or.inr (Or.inr (Or.inr (Or.inr (Or.inr (Or.inr (Or.inr (Or.inr (Or.inr (Or.inl (by omega)))))))))))
  · exact (Or.inr (Or.inr (Or.inr (Or.inr (Or.inr (Or.inr (Or.inr (Or.inr (Or.inr (Or.inr (Or.inl (by omega))))))))))))
  · exact (Or.inr (Or.inr (Or.inr (Or.inr (Or.inr (Or.inr (Or.inr (Or.inr (Or.inr (Or.inr (Or.inr (Or.inl (by omega)))))))))))))
  · exact (Or.inr (Or.inr (Or.inr (Or.inr (Or.inr (Or.inr (Or.inr (Or.inr (Or.inr (Or.inr (Or.inr (Or.inr (by omega)))))))))))))
  · exact (Or.inl (by omega))
  · exact (Or.inr (Or.inl (by omega)))
  · exact (Or.inr (Or.inr (Or.inl (by omega))))
  · exact (Or.inr (Or.inr (Or.inr (Or.inl (by omega)))))
  · exact (Or.inr (Or.inr (Or.inr (Or.inr (Or.inl (by omega))))))
  · exact (Or.inr (Or.inr (Or.inr (Or.inr (Or.inr (Or.inl (by omega)))))))
  · exact (Or.inr (Or.inr (Or.inr (Or.inr (Or.inr (Or.inr (Or.inl (by omega))))))))
  · exact (Or.inr (Or.inr (Or.inr (Or.inr (Or.inr (Or.inr (Or.inr (Or.inl (by omega)))))))))
  · exact (Or.inr (Or.inr (Or.inr (Or.inr (Or.inr (Or.inr (Or.inr (Or.inr (Or.inl (by omega))))))))))
  · exact (Or.inr (Or.inr (Or.inr (Or.inr (Or.inr (Or.inr (Or.inr (Or.inr (Or.inr (Or.inl (by omega)))))))))))
  · exact (Or.inr (Or.inr (Or.inr (Or.inr (Or.inr (Or.inr (Or.inr (Or.inr (Or.inr (Or.inr (Or.inl (by omega))))))))))))
  · exact (Or.inr (Or.inr (Or.inr (Or.inr (Or.inr (Or.inr (Or.inr (Or.inr (Or.inr (Or.inr (Or.inr (Or.inl (by omega)))))))))))))
  · exact (Or.inr (Or.inr (Or.inr (Or.inr (Or.inr (Or.inr (Or.inr (Or.inr (Or.inr (Or.inr (Or.inr (Or.inr (by omega)))))))))))))


set_option maxHeartbeats 2000000 in
/-- **C7**: `checksum_credit_card` accepts exactly the candidates whose digit
string has 13–19 digits and matches the issuer prefix table as the
specification states it numerically (Visa 4; Mastercard 51–55 or 2221–2720;
Amex 34/37; Discover 6011, 65, 644–649; JCB 35; Diners 36, 300–305, 38, 39);
an invalid prefix rejects with confidence 0, a valid prefix with failing Luhn
is still reported valid at 0.87, and a valid prefix with passing Luhn gives
0.99. -/
theorem credit_card_validator_spec :
    (∀ s : List Char, Checksum.checksum_credit_card s = Checksum.ccSpec s)
    ∧ Checksum.checksum_credit_card "4532015112830366".data = (true, 99/100)
    ∧ Checksum.checksum_credit_card "4532015112830367".data = (true, 87/100)
    ∧ Checksum.checksum_credit_card "1234567890123456".data = (false, 0) := by
  refine ⟨?_, rfl, rfl, rfl⟩
  intro s
  have h9 := extract_digits_le_nine s
  unfold Checksum.checksum_credit_card Checksum.ccSpec
  dsimp only
  generalize hgen : Checksum.extract_digits s = d at h9 ⊢
  by_cases hlen : d.length < 13 ∨ 19 < d.length
  · rw [if_pos hlen, if_neg (by rintro ⟨h1, h2, -⟩; omega)]
  · push_neg at hlen
    obtain ⟨hl13, hl19⟩ := hlen
    rw [if_neg (by omega)]
    rcases d with _ | ⟨a, d1⟩
    · simp at hl13
    rcases d1 with _ | ⟨b, d2⟩
    · simp at hl13
    rcases d2 with _ | ⟨c, d3⟩
    · simp at hl13
    rcases d3 with _ | ⟨e, rest⟩
    · simp at hl13
    have ha : a ≤ 9 := h9 a (by simp)
    have hb : b ≤ 9 := h9 b (by simp)
    have hc : c ≤ 9 := h9 c (by simp)
    have he : e ≤ 9 := h9 e (by simp)
    have hlen3 : 3 ≤ (a :: b :: c :: e :: rest).length := by simp
    have hlen4 : 4 ≤ (a :: b :: c :: e :: rest).length := by simp
    rw [if_pos hlen3, if_pos hlen4]
    have ht1 : (a :: b :: c :: e :: rest).take 1 = [a] := rfl
    have ht2 : (a :: b :: c :: e :: rest).take 2 = [a, b] := rfl
    have ht3 : (a :: b :: c :: e :: rest).take 3 = [a, b, c] := rfl
    have ht4 : (a :: b :: c :: e :: rest).take 4 = [a, b, c, e] := rfl
    have hn1 : OpenLabels.natOfDigits [a] = a := by
      simp only [OpenLabels.natOfDigits, List.foldl_cons, List.foldl_nil]; omega
    have hn2 : OpenLabels.natOfDigits [a, b] = 10 * a + b := by
      simp only [OpenLabels.natOfDigits, List.foldl_cons, List.foldl_nil]; omega
    have hn3 : OpenLabels.natOfDigits [a, b, c] = 100 * a + 10 * b + c := by
      simp only [OpenLabels.natOfDigits, List.foldl_cons, List.foldl_nil]; omega
    have hn4 : OpenLabels.natOfDigits [a, b, c, e] = 1000 * a + 100 * b + 10 * c + e := by
      simp only [OpenLabels.natOfDigits, List.foldl_cons, List.foldl_nil]; omega
    rw [ht1, ht2, ht3, ht4, hn1, hn2, hn3, hn4]
    simp only [List.cons.injEq, and_true]
    clear hgen h9 ht1 ht2 ht3 ht4 hn1 hn2 hn3 hn4
    simp only [ccPrefixIff a b c e ha hb hc he]
    simp only [hl13, hl19, true_and]
    split_ifs <;> rfl

/-- **C1** (counterexample): the claimed correspondence between tier and the
*rounded* score fails.  `score({"SSN": 1}, "PUBLIC", 0.796)` has unrounded
final score 79.6, so the result carries score `round(79.6) = 80` together
with tier `"HIGH"`, although the claim requires tier `"CRITICAL"` whenever
the carried score is at least 80. -/
theorem scoring_tier_rounded_score_counterexample :
    (Scoring.score_internal Scoring.lnModel [("SSN", 1)] "PUBLIC" (796/1000)).score = 80
    ∧ (Scoring.score_internal Scoring.lnModel [("SSN", 1)] "PUBLIC" (796/1000)).tier
        = "HIGH" := by
  have hw : Scoring.get_weight "SSN" = 10 := by decide
  have hco : Scoring.get_co_occurrence_multiplier [("SSN", 1)] = (1, []) := by decide
  have hup : Scoring.toUpperStr "PUBLIC" = "PUBLIC" := by decide
  constructor <;>
    simp [Scoring.score_internal, Scoring.base_score, Scoring.lnModel,
      Scoring.WEIGHT_SCALE, hw, hco, hup, Scoring.EXPOSURE_MULTIPLIERS, List.lookup,
      Scoring.roundF64, Scoring.score_to_tier] <;>
    norm_num

/-- **C1** (amended): the tier corresponds to the *unrounded* final score
`min(100, content_score × exposure_multiplier)` via the published thresholds
(CRITICAL iff ≥ 80, HIGH iff ≥ 55, MEDIUM iff ≥ 31, LOW iff ≥ 11, else
MINIMAL), while the integer score the result carries is that final score
rounded; the two can disagree when rounding crosses a threshold. -/
theorem scoring_tier_matches_unrounded_final_score (lnF : Int → ℚ)
    (entities : List (String × Int)) (exposure : String) (confidence : ℚ) :
    (Scoring.score_internal lnF entities exposure confidence).tier
        = Scoring.score_to_tier (Scoring.final_score_val lnF entities exposure confidence)
    ∧ (Scoring.score_internal lnF entities exposure confidence).score
        = Scoring.roundF64 (Scoring.final_score_val lnF entities exposure confidence)
    ∧ (∀ x : ℚ,
        (Scoring.score_to_tier x = "CRITICAL" ↔ 80 ≤ x)
        ∧ (Scoring.score_to_tier x = "HIGH" ↔ 55 ≤ x ∧ x < 80)
        ∧ (Scoring.score_to_tier x = "MEDIUM" ↔ 31 ≤ x ∧ x < 55)
        ∧ (Scoring.score_to_tier x = "LOW" ↔ 11 ≤ x ∧ x < 31)
        ∧ (Scoring.score_to_tier x = "MINIMAL" ↔ x < 11)) := by
  refine ⟨?_, ?_, ?_⟩
  · by_cases h : entities = [] <;>
      simp [Scoring.score_internal, Scoring.final_score_val, h] <;>
      norm_num [Scoring.score_to_tier]
  · by_cases h : entities = [] <;>
      simp [Scoring.score_internal, Scoring.final_score_val, h] <;>
      norm_num [Scoring.roundF64]
  · intro x
    unfold Scoring.score_to_tier
    split_ifs with h1 h2 h3 h4 <;>
      refine ⟨?_, ?_, ?_, ?_, ?_⟩ <;>
      simp only [String.reduceEq, false_iff, true_iff, iff_false, iff_true, not_and, not_lt,
        not_le] <;>
      first
        | linarith
        | (constructor <;> linarith)
        | (intro hx; linarith)

/-- **C6**: for every nonempty entity map the returned score is
`round(min(100, min(100, Σ weight×4×(1+ln(max(count,1)))×confidence × co_mult)
× exposure_mult))`, and concretely `score({"SSN": 1}, "PRIVATE", 0.85)` is 34
with tier MEDIUM. -/
theorem scoring_formula_and_ssn_example :
    (∀ (lnF : Int → ℚ) (entities : List (String × Int)) (exposure : String)
        (confidence : ℚ), entities ≠ [] →
      (Scoring.score_internal lnF entities exposure confidence).score =
        Scoring.roundF64 (min
          (min ((entities.map (fun tc =>
              (Scoring.get_weight tc.1 : ℚ) * 4 * (1 + lnF (max tc.2 1)) * confidence)).sum
            * (Scoring.get_co_occurrence_multiplier entities).1) 100
          * ((Scoring.EXPOSURE_MULTIPLIERS.lookup (Scoring.toUpperStr exposure)).getD 1)) 100))
    ∧ (Scoring.score_internal Scoring.lnModel [("SSN", 1)] "PRIVATE" (85/100)).score = 34
    ∧ (Scoring.score_internal Scoring.lnModel [("SSN", 1)] "PRIVATE" (85/100)).tier
        = "MEDIUM" := by
  have hw : Scoring.get_weight "SSN" = 10 := by decide
  have hco : Scoring.get_co_occurrence_multiplier [("SSN", 1)] = (1, []) := by decide
  have hup : Scoring.toUpperStr "PRIVATE" = "PRIVATE" := by decide
  refine ⟨?_, ?_, ?_⟩
  · intro lnF entities exposure confidence h
    simp [Scoring.score_internal, h, Scoring.base_score, Scoring.WEIGHT_SCALE]
  · simp [Scoring.score_internal, Scoring.base_score, Scoring.lnModel,
      Scoring.WEIGHT_SCALE, hw, hco, hup, Scoring.EXPOSURE_MULTIPLIERS, List.lookup,
      Scoring.roundF64]
    norm_num
  · simp [Scoring.score_internal, Scoring.base_score, Scoring.lnModel,
      Scoring.WEIGHT_SCALE, hw, hco, hup, Scoring.EXPOSURE_MULTIPLIERS, List.lookup,
      Scoring.score_to_tier]
    norm_num

/-- Witness for `scoring_formula_and_ssn_example`, discharging the
nonemptiness hypothesis at the concrete single-SSN entity map. -/
theorem scoring_formula_and_ssn_example_witness :
    (([("SSN", 1)] : List (String × Int)) ≠ [])
    ∧ (Scoring.score_internal Scoring.lnModel [("SSN", 1)] "PRIVATE" (85/100)).score =
        Scoring.roundF64 (min
          (min ((([("SSN", 1)] : List (String × Int)).map (fun tc =>
              (Scoring.get_weight tc.1 : ℚ) * 4 * (1 + Scoring.lnModel (max tc.2 1)) * (85/100))).sum
            * (Scoring.get_co_occurrence_multiplier [("SSN", 1)]).1) 100
          * ((Scoring.EXPOSURE_MULTIPLIERS.lookup (Scoring.toUpperStr "PRIVATE")).getD 1)) 100) :=
  ⟨by decide,
    scoring_formula_and_ssn_example.1 Scoring.lnModel [("SSN", 1)] "PRIVATE" (85/100)
      (by decide)⟩

section SpanLemmas

open Spans

lemma setK_self (keep : Nat → Bool) (i : Nat) (v : Bool) : setK keep i v i = v := by
  simp [setK]

lemma setK_ne (keep : Nat → Bool) (i : Nat) (v : Bool) {x : Nat} (h : x ≠ i) :
    setK keep i v x = keep x := by
  simp [setK, h]

lemma dedupInner_mono (spans : List SpanC) (idxI : Nat) (l : List Nat)
    (keep : Nat → Bool) (x : Nat) :
    dedupInner spans idxI l keep x = true → keep x = true := by
  induction l generalizing keep with
  | nil => exact fun h => h
  | cons j rest ih =>
    simp only [dedupInner]
    split_ifs with h1 h2 h3
    · exact fun h => h
    · exact ih keep
    · intro hx
      by_cases hxi : x = idxI
      · rw [hxi, setK_self] at hx; exact absurd hx (by simp)
      · rwa [setK_ne _ _ _ hxi] at hx
    · intro hx
      have hx' := ih (setK keep j false) hx
      by_cases hxj : x = j
      · rw [hxj, setK_self] at hx'; exact absurd hx' (by simp)
      · rwa [setK_ne _ _ _ hxj] at hx'

lemma dedupInner_of_false (spans : List SpanC) (idxI : Nat) (l : List Nat)
    (keep : Nat → Bool) (x : Nat) (h : keep x = false) :
    dedupInner spans idxI l keep x = false := by
  cases hr : dedupInner spans idxI l keep x
  · rfl
  · exact absurd (dedupInner_mono spans idxI l keep x hr) (by simp [h])

lemma dedupOuter_mono (spans : List SpanC) (l : List Nat) (keep : Nat → Bool) (x : Nat) :
    dedupOuter spans l keep x = true → keep x = true := by
  induction l generalizing keep with
  | nil => exact fun h => h
  | cons i rest ih =>
    simp only [dedupOuter]
    split_ifs with h1
    · exact ih keep
    · exact fun h => dedupInner_mono spans i rest keep x (ih _ h)

lemma dedupInner_untouched (spans : List SpanC) (idxI : Nat) (l : List Nat)
    (keep : Nat → Bool) (x : Nat) (hxi : x ≠ idxI) (hxl : x ∉ l) :
    dedupInner spans idxI l keep x = keep x := by
  induction l generalizing keep with
  | nil => rfl
  | cons j rest ih =>
    have hxj : x ≠ j := fun h => hxl (h ▸ List.mem_cons_self j rest)
    have hxr : x ∉ rest := fun h => hxl (List.mem_cons_of_mem j h)
    simp only [dedupInner]
    split_ifs with h1 h2 h3
    · rfl
    · exact ih keep hxr
    · exact setK_ne _ _ _ hxi
    · rw [ih (setK keep j false) hxr, setK_ne _ _ _ hxj]

lemma dedupOuter_untouched (spans : List SpanC) (l : List Nat) (keep : Nat → Bool)
    (x : Nat) (hxl : x ∉ l) :
    dedupOuter spans l keep x = keep x := by
  induction l generalizing keep with
  | nil => rfl
  | cons i rest ih =>
    have hxi : x ≠ i := fun h => hxl (h ▸ List.mem_cons_self i rest)
    have hxr : x ∉ rest := fun h => hxl (List.mem_cons_of_mem i h)
    simp only [dedupOuter]
    split_ifs with h1
    · exact ih keep hxr
    · rw [ih _ hxr, dedupInner_untouched spans i rest keep x hxi hxr]

lemma dedupLeB_iff (spans : List SpanC) (a b : Nat) :
    dedupLeB spans a b = true ↔
      cstart (spans.getD a (0, 0, "", 0)) < cstart (spans.getD b (0, 0, "", 0)) ∨
      (cstart (spans.getD a (0, 0, "", 0)) = cstart (spans.getD b (0, 0, "", 0)) ∧
        cstop (spans.getD a (0, 0, "", 0)) ≤ cstop (spans.getD b (0, 0, "", 0))) := by
  simp [dedupLeB]

lemma dedupLeB_start_le (spans : List SpanC) {a b : Nat}
    (h : dedupLeB spans a b = true) :
    cstart (spans.getD a (0, 0, "", 0)) ≤ cstart (spans.getD b (0, 0, "", 0)) := by
  rcases (dedupLeB_iff spans a b).mp h with h | ⟨h, _⟩ <;> omega

lemma dedupInner_sep (spans : List SpanC) (idxI : Nat) (l : List Nat)
    (keep : Nat → Bool)
    (hsort : l.Pairwise (fun a b => dedupLeB spans a b = true))
    (hi : dedupInner spans idxI l keep idxI = true) :
    ∀ y ∈ l,
      cstart (spans.getD y (0, 0, "", 0)) < cstop (spans.getD idxI (0, 0, "", 0)) →
      dedupInner spans idxI l keep y = false := by
  induction l generalizing keep with
  | nil => intro y hy; exact absurd hy (List.not_mem_nil y)
  | cons j rest ih =>
    rw [List.pairwise_cons] at hsort
    intro y hy hov
    simp only [dedupInner] at hi ⊢
    split_ifs at hi ⊢ with h1 h2 h3
    · -- break: no element of j :: rest can overlap idxI
      exfalso
      rcases List.mem_cons.mp hy with rfl | hyr
      · omega
      · have := dedupLeB_start_le spans (hsort.1 y hyr)
        omega
    · -- keep j already false
      rcases List.mem_cons.mp hy with rfl | hyr
      · exact dedupInner_of_false spans idxI rest keep y h2
      · exact ih keep hsort.2 hi y hyr hov
    · -- idxI dropped: contradiction with hi
      rw [setK_self] at hi; exact absurd hi (by simp)
    · -- j dropped, continue
      rcases List.mem_cons.mp hy with rfl | hyr
      · exact dedupInner_of_false spans idxI rest _ y (setK_self keep y false)
      · exact ih (setK keep j false) hsort.2 hi y hyr hov

lemma dedupOuter_sep (spans : List SpanC) (l : List Nat) (keep : Nat → Bool)
    (hsort : l.Pairwise (fun a b => dedupLeB spans a b = true)) (hnd : l.Nodup) :
    l.Pairwise (fun x y =>
      dedupOuter spans l keep x = true → dedupOuter spans l keep y = true →
      cstop (spans.getD x (0, 0, "", 0)) ≤ cstart (spans.getD y (0, 0, "", 0))) := by
  induction l generalizing keep with
  | nil => exact List.Pairwise.nil
  | cons i rest ih =>
    rw [List.pairwise_cons] at hsort
    rw [List.nodup_cons] at hnd
    by_cases hki : keep i = false
    · have hred : dedupOuter spans (i :: rest) keep = dedupOuter spans rest keep := by
        simp only [dedupOuter, if_pos hki]
      rw [List.pairwise_cons]
      constructor
      · intro y _ hKi _
        exfalso
        rw [hred, dedupOuter_untouched spans rest keep i hnd.1] at hKi
        simp [hki] at hKi
      · have := ih keep hsort.2 hnd.2
        exact this.imp (fun {x y} h hx hy => by
          rw [hred] at hx hy; exact h hx hy)
    · have hred : dedupOuter spans (i :: rest) keep
          = dedupOuter spans rest (dedupInner spans i rest keep) := by
        simp only [dedupOuter, if_neg hki]
      rw [List.pairwise_cons]
      constructor
      · intro y hy hKi hKy
        by_contra hov
        push_neg at hov
        rw [hred, dedupOuter_untouched spans rest _ i hnd.1] at hKi
        have hdrop := dedupInner_sep spans i rest keep hsort.2 hKi y hy hov
        rw [hred] at hKy
        have := dedupOuter_mono spans rest _ y hKy
        rw [hdrop] at this
        exact absurd this (by simp)
      · have := ih (dedupInner spans i rest keep) hsort.2 hnd.2
        exact this.imp (fun {x y} h hx hy => by
          rw [hred] at hx hy; exact h hx hy)

lemma dedupInner_exists (spans : List SpanC) (idxI : Nat) (l : List Nat)
    (keep : Nat → Bool) (hni : idxI ∉ l) (hki : keep idxI = true) :
    dedupInner spans idxI l keep idxI = true ∨
      ∃ j ∈ l, dedupInner spans idxI l keep j = true := by
  induction l generalizing keep with
  | nil => exact Or.inl hki
  | cons j rest ih =>
    have hij : idxI ≠ j := fun h => hni (h ▸ List.mem_cons_self j rest)
    have hir : idxI ∉ rest := fun h => hni (List.mem_cons_of_mem j h)
    simp only [dedupInner]
    split_ifs with h1 h2 h3
    · exact Or.inl hki
    · rcases ih keep hir hki with h | ⟨k, hk, h⟩
      · exact Or.inl h
      · exact Or.inr ⟨k, List.mem_cons_of_mem j hk, h⟩
    · refine Or.inr ⟨j, List.mem_cons_self j rest, ?_⟩
      rw [setK_ne _ _ _ (fun h => hij h.symm)]
      cases hkj : keep j
      · exact absurd hkj h2
      · rfl
    · rcases ih (setK keep j false) hir (by rw [setK_ne _ _ _ hij]; exact hki) with h | ⟨k, hk, h⟩
      · exact Or.inl h
      · exact Or.inr ⟨k, List.mem_cons_of_mem j hk, h⟩

lemma dedupOuter_exists (spans : List SpanC) (l : List Nat) (keep : Nat → Bool)
    (hnd : l.Nodup) (h : ∃ x ∈ l, keep x = true) :
    ∃ x ∈ l, dedupOuter spans l keep x = true := by
  induction l generalizing keep with
  | nil => obtain ⟨x, hx, -⟩ := h; exact absurd hx (List.not_mem_nil x)
  | cons i rest ih =>
    rw [List.nodup_cons] at hnd
    by_cases hki : keep i = false
    · have hred : dedupOuter spans (i :: rest) keep = dedupOuter spans rest keep := by
        simp only [dedupOuter, if_pos hki]
      obtain ⟨x, hx, hkx⟩ := h
      have hxr : x ∈ rest := by
        rcases List.mem_cons.mp hx with rfl | hxr
        · rw [hki] at hkx; exact absurd hkx (by simp)
        · exact hxr
      obtain ⟨y, hy, hKy⟩ := ih keep hnd.2 ⟨x, hxr, hkx⟩
      exact ⟨y, List.mem_cons_of_mem i hy, by rw [hred]; exact hKy⟩
    · have hki' : keep i = true := by
        cases hk : keep i
        · exact absurd hk hki
        · rfl
      have hred : dedupOuter spans (i :: rest) keep
          = dedupOuter spans rest (dedupInner spans i rest keep) := by
        simp only [dedupOuter, if_neg hki]
      rcases dedupInner_exists spans i rest keep hnd.1 hki' with hI | ⟨j, hj, hJ⟩
      · refine ⟨i, List.mem_cons_self i rest, ?_⟩
        rw [hred, dedupOuter_untouched spans rest _ i hnd.1]
        exact hI
      · obtain ⟨y, hy, hKy⟩ := ih (dedupInner spans i rest keep) hnd.2 ⟨j, hj, hJ⟩
        exact ⟨y, List.mem_cons_of_mem i hy, by rw [hred]; exact hKy⟩

lemma dedupLeB_total_lemma (spans : List SpanC) (a b : Nat) :
    dedupLeB spans a b = true ∨ dedupLeB spans b a = true := by
  rw [dedupLeB_iff, dedupLeB_iff]; omega

lemma dedupLeB_trans_lemma (spans : List SpanC) {a b c : Nat}
    (hab : dedupLeB spans a b = true) (hbc : dedupLeB spans b c = true) :
    dedupLeB spans a c = true := by
  rw [dedupLeB_iff] at hab hbc ⊢; omega

lemma dedup_single (s : SpanC) : deduplicate_spans [s] = [0] := by
  simp [deduplicate_spans]

lemma dedup_pair_sorted_aux (a b : SpanC) (hle : dedupLeB [a, b] 0 1 = true) :
    List.insertionSort (fun x y => dedupLeB [a, b] x y = true) (List.range 2)
      = [0, 1] := by
  simp [List.range_succ, List.insertionSort, List.orderedInsert, hle]

lemma deduplicate_spans_pair_red (a b : SpanC) :
    deduplicate_spans [a, b] =
      (List.range 2).filter (fun i =>
        dedupOuter [a, b]
          (List.insertionSort (fun x y => dedupLeB [a, b] x y = true) (List.range 2))
          (fun _ => true) i) :=
  rfl

lemma usizeSub_eq {x y : Nat} (hyx : y ≤ x) (hx : x < 2 ^ 64) :
    usizeSub x y = x - y := by
  unfold usizeSub
  omega

lemma dedup_pair_overlap (a b : SpanC)
    (hle : cstart a < cstart b ∨ (cstart a = cstart b ∧ cstop a ≤ cstop b))
    (hov : cstart b < cstop a) :
    deduplicate_spans [a, b] =
      (if cconf b > cconf a ∨
          (cconf b = cconf a ∧
            usizeSub (cstop b) (cstart b) > usizeSub (cstop a) (cstart a))
       then [1] else [0]) := by
  have hle' : dedupLeB [a, b] 0 1 = true := by
    rw [dedupLeB_iff]; simpa using hle
  have hov2 : ¬ (cstop a ≤ cstart b) := not_le.mpr hov
  rw [deduplicate_spans_pair_red, dedup_pair_sorted_aux a b hle']
  by_cases hc : cconf b > cconf a ∨
      (cconf b = cconf a ∧
        usizeSub (cstop b) (cstart b) > usizeSub (cstop a) (cstart a))
  · have h0 : dedupOuter [a, b] [0, 1] (fun _ => true) 0 = false := by
      simp [dedupOuter, dedupInner, hov2, hc, setK]
    have h1 : dedupOuter [a, b] [0, 1] (fun _ => true) 1 = true := by
      simp [dedupOuter, dedupInner, hov2, hc, setK]
    rw [if_pos hc, show List.range 2 = [0, 1] from rfl]
    simp [List.filter, h0, h1]
  · have h0 : dedupOuter [a, b] [0, 1] (fun _ => true) 0 = true := by
      simp [dedupOuter, dedupInner, hov2, hc, setK]
    have h1 : dedupOuter [a, b] [0, 1] (fun _ => true) 1 = false := by
      simp [dedupOuter, dedupInner, hov2, hc, setK]
    rw [if_neg hc, show List.range 2 = [0, 1] from rfl]
    simp [List.filter, h0, h1]

lemma dedup_pair_disjoint (a b : SpanC)
    (hle : cstart a < cstart b ∨ (cstart a = cstart b ∧ cstop a ≤ cstop b))
    (hnov : cstop a ≤ cstart b) :
    deduplicate_spans [a, b] = [0, 1] := by
  have hle' : dedupLeB [a, b] 0 1 = true := by
    rw [dedupLeB_iff]; simpa using hle
  rw [deduplicate_spans_pair_red, dedup_pair_sorted_aux a b hle']
  have h0 : dedupOuter [a, b] [0, 1] (fun _ => true) 0 = true := by
    simp [dedupOuter, dedupInner, hnov, setK]
  have h1 : dedupOuter [a, b] [0, 1] (fun _ => true) 1 = true := by
    simp [dedupOuter, dedupInner, hnov, setK]
  rw [show List.range 2 = [0, 1] from rfl]
  simp [List.filter, h0, h1]

lemma coLeB_iff (spans : List SpanP) (a b : Nat) :
    coLeB spans a b = true ↔
      (spans.getD a (0, 0)).1 < (spans.getD b (0, 0)).1 ∨
      ((spans.getD a (0, 0)).1 = (spans.getD b (0, 0)).1 ∧
        (spans.getD a (0, 0)).2 ≤ (spans.getD b (0, 0)).2) := by
  simp [coLeB]

lemma coLeB_total_lemma (spans : List SpanP) (a b : Nat) :
    coLeB spans a b = true ∨ coLeB spans b a = true := by
  rw [coLeB_iff, coLeB_iff]; omega

lemma coLeB_trans_lemma (spans : List SpanP) {a b c : Nat}
    (hab : coLeB spans a b = true) (hbc : coLeB spans b c = true) :
    coLeB spans a c = true := by
  rw [coLeB_iff] at hab hbc ⊢; omega

lemma mkPair_comm (i j : Nat) : mkPair i j = mkPair j i := by
  unfold mkPair
  split_ifs <;> simp_all [Prod.ext_iff] <;> omega

lemma coInner_mem_of (spans : List SpanP) (allow : Bool) (idxI : Nat) (l : List Nat)
    (p : Nat × Nat) (hp : p ∈ coInner spans allow idxI l) :
    ∃ j ∈ l, p = mkPair idxI j ∧
      (spans.getD j (0, 0)).1 < (spans.getD idxI (0, 0)).2 ∧
      ¬(allow = true ∧ (spans.getD idxI (0, 0)).1 = (spans.getD j (0, 0)).1 ∧
        (spans.getD idxI (0, 0)).2 = (spans.getD j (0, 0)).2) := by
  induction l with
  | nil => exact absurd hp (List.not_mem_nil p)
  | cons j rest ih =>
    simp only [coInner] at hp
    split_ifs at hp with h1 h2
    · exact absurd hp (List.not_mem_nil p)
    · obtain ⟨k, hk, h⟩ := ih hp
      exact ⟨k, List.mem_cons_of_mem j hk, h⟩
    · rcases List.mem_cons.mp hp with rfl | hp'
      · refine ⟨j, List.mem_cons_self j rest, rfl, by omega, ?_⟩
        simpa using h2
      · obtain ⟨k, hk, h⟩ := ih hp'
        exact ⟨k, List.mem_cons_of_mem j hk, h⟩

lemma coInner_mem_intro (spans : List SpanP) (allow : Bool) (idxI : Nat) (l : List Nat)
    (hsort : l.Pairwise (fun a b => coLeB spans a b = true))
    {j : Nat} (hj : j ∈ l)
    (hov : (spans.getD j (0, 0)).1 < (spans.getD idxI (0, 0)).2)
    (hni : ¬(allow = true ∧ (spans.getD idxI (0, 0)).1 = (spans.getD j (0, 0)).1 ∧
      (spans.getD idxI (0, 0)).2 = (spans.getD j (0, 0)).2)) :
    mkPair idxI j ∈ coInner spans allow idxI l := by
  induction l with
  | nil => exact absurd hj (List.not_mem_nil j)
  | cons k rest ih =>
    rw [List.pairwise_cons] at hsort
    simp only [coInner]
    split_ifs with h1 h2
    · exfalso
      rcases List.mem_cons.mp hj with rfl | hjr
      · omega
      · have hk := (coLeB_iff spans k j).mp (hsort.1 j hjr)
        omega
    · rcases List.mem_cons.mp hj with rfl | hjr
      · exact absurd (and_assoc.mp (by simpa using h2)) hni
      · exact ih hsort.2 hjr
    · rcases List.mem_cons.mp hj with rfl | hjr
      · exact List.mem_cons_self _ _
      · exact List.mem_cons_of_mem _ (ih hsort.2 hjr)

lemma coOuter_mem_of (spans : List SpanP) (allow : Bool) (l : List Nat)
    (hsort : l.Pairwise (fun a b => coLeB spans a b = true)) (hnd : l.Nodup)
    (p : Nat × Nat) (hp : p ∈ coOuter spans allow l) :
    ∃ x ∈ l, ∃ y ∈ l, x ≠ y ∧ coLeB spans x y = true ∧ p = mkPair x y ∧
      (spans.getD y (0, 0)).1 < (spans.getD x (0, 0)).2 ∧
      ¬(allow = true ∧ (spans.getD x (0, 0)).1 = (spans.getD y (0, 0)).1 ∧
        (spans.getD x (0, 0)).2 = (spans.getD y (0, 0)).2) := by
  induction l with
  | nil => exact absurd hp (List.not_mem_nil p)
  | cons i rest ih =>
    rw [List.pairwise_cons] at hsort
    rw [List.nodup_cons] at hnd
    rcases List.mem_append.mp hp with hp' | hp'
    · obtain ⟨j, hj, hpair, hov, hni⟩ := coInner_mem_of spans allow i rest p hp'
      exact ⟨i, List.mem_cons_self i rest, j, List.mem_cons_of_mem i hj,
        fun h => hnd.1 (h ▸ hj), hsort.1 j hj, hpair, hov, hni⟩
    · obtain ⟨x, hx, y, hy, h⟩ := ih hsort.2 hnd.2 hp'
      exact ⟨x, List.mem_cons_of_mem i hx, y, List.mem_cons_of_mem i hy, h⟩

lemma coOuter_mem_intro (spans : List SpanP) (allow : Bool) (l : List Nat)
    (hsort : l.Pairwise (fun a b => coLeB spans a b = true))
    {i j : Nat} (hi : i ∈ l) (hj : j ∈ l) (hij : i ≠ j)
    (hov : spansOverlapP (spans.getD i (0, 0)) (spans.getD j (0, 0)))
    (hni : ¬(allow = true ∧ (spans.getD i (0, 0)).1 = (spans.getD j (0, 0)).1 ∧
      (spans.getD i (0, 0)).2 = (spans.getD j (0, 0)).2)) :
    mkPair i j ∈ coOuter spans allow l := by
  unfold spansOverlapP at hov
  induction l with
  | nil => exact absurd hi (List.not_mem_nil i)
  | cons k rest ih =>
    rw [List.pairwise_cons] at hsort
    simp only [coOuter, List.mem_append]
    rcases List.mem_cons.mp hi with rfl | hir
    · have hjr : j ∈ rest := by
        rcases List.mem_cons.mp hj with rfl | hjr
        · exact absurd rfl hij
        · exact hjr
      exact Or.inl (coInner_mem_intro spans allow i rest hsort.2 hjr (by omega) hni)
    · rcases List.mem_cons.mp hj with rfl | hjr
      · refine Or.inl ?_
        rw [mkPair_comm]
        refine coInner_mem_intro spans allow j rest hsort.2 hir (by omega) ?_
        intro ⟨ha, h1, h2⟩
        exact hni ⟨ha, h1.symm, h2.symm⟩
      · exact Or.inr (ih hsort.2 hir hjr)

end SpanLemmas

/-- **C4** (counterexample): the claim's tie-break "on a confidence tie keep
the strictly longer span" fails for a span whose `end` is below its `start`:
for `[(0,10,"A",1),(5,3,"B",1)]` the span at index 0 has length 10 and the
claimed policy keeps it (output `[0]`), but the source computes the second
length as the usize subtraction `3 - 5`, which underflows — a debug build
panics, a release build wraps to `2^64 - 2` and keeps index 1 instead. -/
theorem dedup_underflow_tiebreak_counterexample :
    Spans.deduplicate_spans [(0, 10, "A", 1), (5, 3, "B", 1)] = [1] := by
  decide

/-- **C4** (amended): for well-formed spans — `start ≤ end < 2^64`, so the
usize length computation `end - start` cannot underflow and debug and release
builds agree — `deduplicate_spans` resolves a detected overlap between the
sorted-earlier span `a` and the sorted-later span `b` by keeping the strictly
higher-confidence span, on a confidence tie the strictly longer span, and on a
full tie the earlier-sorted one; empty input yields empty output, a single
span is kept, and the specification's concrete examples hold. -/
theorem dedup_overlap_resolution_policy :
    Spans.deduplicate_spans [] = []
    ∧ (∀ s : Spans.SpanC, Spans.deduplicate_spans [s] = [0])
    ∧ (∀ a b : Spans.SpanC,
        Spans.cstart a ≤ Spans.cstop a → Spans.cstop a < 2 ^ 64 →
        Spans.cstart b ≤ Spans.cstop b → Spans.cstop b < 2 ^ 64 →
        (Spans.cstart a < Spans.cstart b ∨
          (Spans.cstart a = Spans.cstart b ∧ Spans.cstop a ≤ Spans.cstop b)) →
        Spans.cstart b < Spans.cstop a →
        Spans.deduplicate_spans [a, b] =
          (if Spans.cconf b > Spans.cconf a ∨
              (Spans.cconf b = Spans.cconf a ∧
                Spans.cstop b - Spans.cstart b > Spans.cstop a - Spans.cstart a)
           then [1] else [0]))
    ∧ (∀ a b : Spans.SpanC,
        (Spans.cstart a < Spans.cstart b ∨
          (Spans.cstart a = Spans.cstart b ∧ Spans.cstop a ≤ Spans.cstop b)) →
        Spans.cstop a ≤ Spans.cstart b →
        Spans.deduplicate_spans [a, b] = [0, 1])
    ∧ Spans.deduplicate_spans [(0, 10, "SSN", 85/100), (5, 15, "SSN", 99/100)] = [1]
    ∧ Spans.deduplicate_spans [(0, 5, "SSN", 99/100), (0, 10, "SSN", 99/100)] = [1]
    ∧ Spans.deduplicate_spans [(0, 5, "SSN", 99/100), (5, 10, "EMAIL", 95/100)] = [0, 1] := by
  have hpol : ∀ a b : Spans.SpanC,
      Spans.cstart a ≤ Spans.cstop a → Spans.cstop a < 2 ^ 64 →
      Spans.cstart b ≤ Spans.cstop b → Spans.cstop b < 2 ^ 64 →
      (Spans.cstart a < Spans.cstart b ∨
        (Spans.cstart a = Spans.cstart b ∧ Spans.cstop a ≤ Spans.cstop b)) →
      Spans.cstart b < Spans.cstop a →
      Spans.deduplicate_spans [a, b] =
        (if Spans.cconf b > Spans.cconf a ∨
            (Spans.cconf b = Spans.cconf a ∧
              Spans.cstop b - Spans.cstart b > Spans.cstop a - Spans.cstart a)
         then [1] else [0]) := by
    intro a b hwa1 hwa2 hwb1 hwb2 hle hov
    rw [dedup_pair_overlap a b hle hov, usizeSub_eq hwb1 hwb2, usizeSub_eq hwa1 hwa2]
  refine ⟨rfl, dedup_single, hpol, dedup_pair_disjoint, ?_, ?_, ?_⟩
  · rw [hpol _ _ (by norm_num [Spans.cstart, Spans.cstop])
      (by norm_num [Spans.cstop]) (by norm_num [Spans.cstart, Spans.cstop])
      (by norm_num [Spans.cstop]) (Or.inl (by norm_num [Spans.cstart]))
      (by norm_num [Spans.cstart, Spans.cstop])]
    rw [if_pos (Or.inl (by norm_num [Spans.cconf]))]
  · rw [hpol _ _ (by norm_num [Spans.cstart, Spans.cstop])
      (by norm_num [Spans.cstop]) (by norm_num [Spans.cstart, Spans.cstop])
      (by norm_num [Spans.cstop]) (Or.inr (by norm_num [Spans.cstart, Spans.cstop]))
      (by norm_num [Spans.cstart, Spans.cstop])]
    rw [if_pos (Or.inr (by norm_num [Spans.cconf, Spans.cstart, Spans.cstop]))]
  · exact dedup_pair_disjoint _ _ (Or.inl (by norm_num [Spans.cstart]))
      (by norm_num [Spans.cstart, Spans.cstop])

/-- Witness for `dedup_overlap_resolution_policy` at concrete two-span inputs
(confidences 0 and 1, which the kernel can compare), discharging the
well-formedness, ordering and overlap hypotheses by evaluation. -/
theorem dedup_overlap_resolution_policy_witness :
    Spans.deduplicate_spans [(0, 10, "A", 0), (5, 15, "B", 1)] = [1]
    ∧ Spans.deduplicate_spans [(0, 10, "A", 0), (10, 15, "B", 1)] = [0, 1] := by
  constructor
  · exact (dedup_overlap_resolution_policy.2.2.1 (0, 10, "A", 0) (5, 15, "B", 1)
      (by decide) (by decide) (by decide) (by decide)
      (by decide) (by decide)).trans (by decide)
  · exact dedup_overlap_resolution_policy.2.2.2.1 (0, 10, "A", 0) (10, 15, "B", 1)
      (by decide) (by decide)

/-- **C5** (counterexample): for a degenerate (empty) span the sweep's
criterion `start_j < end_i` is not half-open overlap: `check_overlaps`
reports the pair `(0, 1)` for `[(0,10), (3,3)]` although `[3,3)` is empty and
overlaps nothing, so the output is not exactly the overlapping pairs. -/
theorem check_overlaps_degenerate_span_counterexample :
    Spans.check_overlaps [(0, 10), (3, 3)] true = [(0, 1)]
    ∧ ¬ Spans.spansOverlapP (0, 10) (3, 3) := by
  constructor <;> decide

/-- **C5** (amended): for span lists whose spans are all non-empty
(`start < end`), `check_overlaps` returns exactly the pairs of original
indices, smaller index first, whose half-open spans overlap, a pair of spans
with identical `(start, end)` being excluded iff `allow_identical`; the
specification's three concrete examples hold.  (For degenerate empty spans
the sweep criterion can report non-overlapping pairs.) -/
theorem check_overlaps_exactly_overlapping_pairs :
    (∀ (spans : List Spans.SpanP) (allow : Bool),
      (∀ s ∈ spans, s.1 < s.2) →
      ∀ a b : Nat,
        ((a, b) ∈ Spans.check_overlaps spans allow ↔
          a < b ∧ b < spans.length ∧
          Spans.spansOverlapP (spans.getD a (0, 0)) (spans.getD b (0, 0)) ∧
          ¬(allow = true ∧ spans.getD a (0, 0) = spans.getD b (0, 0))))
    ∧ Spans.check_overlaps [(0, 10), (5, 15)] true = [(0, 1)]
    ∧ Spans.check_overlaps [(0, 10), (0, 10)] true = []
    ∧ Spans.check_overlaps [(0, 10), (0, 10)] false = [(0, 1)] := by
  refine ⟨?_, by decide, by decide, by decide⟩
  intro spans allow hwf a b
  have hwfD : ∀ i, i < spans.length →
      (spans.getD i (0, 0)).1 < (spans.getD i (0, 0)).2 := by
    intro i hi
    rw [List.getD_eq_getElem spans (0, 0) hi]
    exact hwf _ (List.getElem_mem hi)
  by_cases hlen : spans.length < 2
  · rw [Spans.check_overlaps, if_pos hlen]
    simp only [List.not_mem_nil, false_iff]
    rintro ⟨h1, h2, -, -⟩
    omega
  · have instTotal : IsTotal ℕ (fun x y => Spans.coLeB spans x y = true) :=
      ⟨coLeB_total_lemma spans⟩
    have instTrans : IsTrans ℕ (fun x y => Spans.coLeB spans x y = true) :=
      ⟨fun _ _ _ => coLeB_trans_lemma spans⟩
    have hperm : (List.insertionSort (fun x y => Spans.coLeB spans x y = true)
        (List.range spans.length)).Perm (List.range spans.length) :=
      List.perm_insertionSort _ _
    have hnodup : (List.insertionSort (fun x y => Spans.coLeB spans x y = true)
        (List.range spans.length)).Nodup :=
      hperm.nodup_iff.mpr (List.nodup_range spans.length)
    have hsort : List.Pairwise (fun x y => Spans.coLeB spans x y = true)
        (List.insertionSort (fun x y => Spans.coLeB spans x y = true)
          (List.range spans.length)) :=
      List.sorted_insertionSort _ _
    rw [Spans.check_overlaps, if_neg hlen]
    constructor
    · intro hmem
      obtain ⟨x, hx, y, hy, hxy, hle, hpair, hov, hni⟩ :=
        coOuter_mem_of spans allow _ hsort hnodup _ hmem
      have hxn : x < spans.length := List.mem_range.mp ((List.mem_insertionSort _).mp hx)
      have hyn : y < spans.length := List.mem_range.mp ((List.mem_insertionSort _).mp hy)
      have hle' := (coLeB_iff spans x y).mp hle
      have hovxy : Spans.spansOverlapP (spans.getD x (0, 0)) (spans.getD y (0, 0)) := by
        have h1 := hwfD x hxn
        have h2 := hwfD y hyn
        unfold Spans.spansOverlapP
        omega
      have hpair' : (a, b) = Spans.mkPair x y := hpair
      unfold Spans.mkPair at hpair'
      split_ifs at hpair' with hxlt
      · obtain ⟨rfl, rfl⟩ := Prod.mk.injEq .. ▸ hpair'
        exact ⟨hxlt, hyn, hovxy, fun h => hni ⟨h.1, (Prod.ext_iff.mp h.2).1,
          (Prod.ext_iff.mp h.2).2⟩⟩
      · obtain ⟨rfl, rfl⟩ := Prod.mk.injEq .. ▸ hpair'
        refine ⟨by omega, hxn, ?_, ?_⟩
        · unfold Spans.spansOverlapP at hovxy ⊢
          omega
        · intro h
          exact hni ⟨h.1, (Prod.ext_iff.mp h.2).1.symm, (Prod.ext_iff.mp h.2).2.symm⟩
    · rintro ⟨hab, hbn, hov, hni⟩
      have han : a < spans.length := by omega
      have hmkp : Spans.mkPair a b = (a, b) := by
        unfold Spans.mkPair
        rw [if_pos hab]
      rw [← hmkp]
      refine coOuter_mem_intro spans allow _ hsort
        ((List.mem_insertionSort _).mpr (List.mem_range.mpr han))
        ((List.mem_insertionSort _).mpr (List.mem_range.mpr hbn))
        (by omega) hov ?_
      intro ⟨h1, h2, h3⟩
      exact hni ⟨h1, Prod.ext h2 h3⟩

/-- Witness for `check_overlaps_exactly_overlapping_pairs`, discharging the
non-empty-span hypothesis at the specification's first example. -/
theorem check_overlaps_exactly_overlapping_pairs_witness :
    (∀ s ∈ ([(0, 10), (5, 15)] : List Spans.SpanP), s.1 < s.2)
    ∧ ((0, 1) ∈ Spans.check_overlaps [(0, 10), (5, 15)] true ↔
        0 < 1 ∧ 1 < ([(0, 10), (5, 15)] : List Spans.SpanP).length ∧
        Spans.spansOverlapP (([(0, 10), (5, 15)] : List Spans.SpanP).getD 0 (0, 0))
          (([(0, 10), (5, 15)] : List Spans.SpanP).getD 1 (0, 0)) ∧
        ¬(true = true ∧ ([(0, 10), (5, 15)] : List Spans.SpanP).getD 0 (0, 0)
            = ([(0, 10), (5, 15)] : List Spans.SpanP).getD 1 (0, 0))) :=
  ⟨by decide, check_overlaps_exactly_overlapping_pairs.1 [(0, 10), (5, 15)] true
    (by decide) 0 1⟩

/-- **C10** (counterexample): two identical *empty* spans are both kept by
`deduplicate_spans` — the sweep's break condition `start_j >= end_i` fires
immediately for them, so no overlap is ever detected. -/
theorem dedup_identical_empty_spans_counterexample :
    Spans.deduplicate_spans [(5, 5, "X", 1), (5, 5, "X", 1)] = [0, 1] := by
  decide

/-- **C10** (amended): for well-formed spans (`start ≤ end < 2^64`, so the
sweep's usize length subtraction cannot underflow — a debug build panics
there, so the program only has an output on this domain) the kept indices of
`deduplicate_spans` are a strictly ascending subset of the original indices,
every non-empty input keeps at least one index, the kept spans are pairwise
non-overlapping (one ends at or before the other starts), and — consequently
— two identical *non-empty* spans are never both kept (identical empty spans
can both survive). -/
theorem dedup_output_invariants (spans : List Spans.SpanC)
    (hwf : ∀ s ∈ spans, Spans.cstart s ≤ Spans.cstop s ∧ Spans.cstop s < 2 ^ 64) :
    (∀ i ∈ Spans.deduplicate_spans spans, i < spans.length)
    ∧ List.Pairwise (· < ·) (Spans.deduplicate_spans spans)
    ∧ (spans ≠ [] → Spans.deduplicate_spans spans ≠ [])
    ∧ (∀ i ∈ Spans.deduplicate_spans spans, ∀ j ∈ Spans.deduplicate_spans spans, i ≠ j →
        Spans.cstop (spans.getD i (0, 0, "", 0)) ≤ Spans.cstart (spans.getD j (0, 0, "", 0)) ∨
        Spans.cstop (spans.getD j (0, 0, "", 0)) ≤ Spans.cstart (spans.getD i (0, 0, "", 0)))
    ∧ (∀ i ∈ Spans.deduplicate_spans spans, ∀ j ∈ Spans.deduplicate_spans spans, i ≠ j →
        Spans.cstart (spans.getD i (0, 0, "", 0)) < Spans.cstop (spans.getD i (0, 0, "", 0)) →
        ¬(Spans.cstart (spans.getD i (0, 0, "", 0)) = Spans.cstart (spans.getD j (0, 0, "", 0)) ∧
          Spans.cstop (spans.getD i (0, 0, "", 0)) = Spans.cstop (spans.getD j (0, 0, "", 0)))) := by
  by_cases hemp : spans = []
  · subst hemp
    refine ⟨?_, ?_, ?_, ?_, ?_⟩ <;> simp [Spans.deduplicate_spans]
  have hne : spans.isEmpty = false := by
    cases spans with
    | nil => exact absurd rfl hemp
    | cons _ _ => rfl
  by_cases hone : spans.length = 1
  · have hout : Spans.deduplicate_spans spans = [0] := by
      simp [Spans.deduplicate_spans, hne, hone]
    rw [hout]
    refine ⟨?_, ?_, ?_, ?_, ?_⟩
    · intro i hi; rw [List.mem_singleton] at hi; omega
    · simp
    · intro _; simp
    · intro i hi j hj hij
      rw [List.mem_singleton] at hi hj; omega
    · intro i hi j hj hij
      rw [List.mem_singleton] at hi hj; omega
  · have instTotal : IsTotal ℕ (fun a b => Spans.dedupLeB spans a b = true) :=
      ⟨dedupLeB_total_lemma spans⟩
    have instTrans : IsTrans ℕ (fun a b => Spans.dedupLeB spans a b = true) :=
      ⟨fun _ _ _ => dedupLeB_trans_lemma spans⟩
    have hperm : (List.insertionSort (fun a b => Spans.dedupLeB spans a b = true)
        (List.range spans.length)).Perm (List.range spans.length) :=
      List.perm_insertionSort _ _
    have hnodup : (List.insertionSort (fun a b => Spans.dedupLeB spans a b = true)
        (List.range spans.length)).Nodup :=
      hperm.nodup_iff.mpr (List.nodup_range spans.length)
    have hsort : List.Pairwise (fun a b => Spans.dedupLeB spans a b = true)
        (List.insertionSort (fun a b => Spans.dedupLeB spans a b = true)
          (List.range spans.length)) :=
      List.sorted_insertionSort _ _
    have hout : Spans.deduplicate_spans spans
        = (List.range spans.length).filter (fun i =>
            Spans.dedupOuter spans
              (List.insertionSort (fun a b => Spans.dedupLeB spans a b = true)
                (List.range spans.length))
              (fun _ => true) i) := by
      simp [Spans.deduplicate_spans, hne, hone]
    have hmem : ∀ i, i ∈ Spans.deduplicate_spans spans ↔
        i < spans.length ∧
          Spans.dedupOuter spans
            (List.insertionSort (fun a b => Spans.dedupLeB spans a b = true)
              (List.range spans.length))
            (fun _ => true) i = true := by
      intro i
      rw [hout, List.mem_filter, List.mem_range]
    have main4 : ∀ i ∈ Spans.deduplicate_spans spans,
        ∀ j ∈ Spans.deduplicate_spans spans, i ≠ j →
        Spans.cstop (spans.getD i (0, 0, "", 0)) ≤ Spans.cstart (spans.getD j (0, 0, "", 0)) ∨
        Spans.cstop (spans.getD j (0, 0, "", 0)) ≤ Spans.cstart (spans.getD i (0, 0, "", 0)) := by
      intro i hi j hj hij
      obtain ⟨hin, hKi⟩ := (hmem i).mp hi
      obtain ⟨hjn, hKj⟩ := (hmem j).mp hj
      have hisort : i ∈ List.insertionSort (fun a b => Spans.dedupLeB spans a b = true)
          (List.range spans.length) :=
        (List.mem_insertionSort _).mpr (List.mem_range.mpr hin)
      have hjsort : j ∈ List.insertionSort (fun a b => Spans.dedupLeB spans a b = true)
          (List.range spans.length) :=
        (List.mem_insertionSort _).mpr (List.mem_range.mpr hjn)
      have hpair := dedupOuter_sep spans
        (List.insertionSort (fun a b => Spans.dedupLeB spans a b = true)
          (List.range spans.length))
        (fun _ => true) hsort hnodup
      have hQ : List.Pairwise (fun x y =>
          Spans.dedupOuter spans
            (List.insertionSort (fun a b => Spans.dedupLeB spans a b = true)
              (List.range spans.length)) (fun _ => true) x = true →
          Spans.dedupOuter spans
            (List.insertionSort (fun a b => Spans.dedupLeB spans a b = true)
              (List.range spans.length)) (fun _ => true) y = true →
          (Spans.cstop (spans.getD x (0, 0, "", 0)) ≤ Spans.cstart (spans.getD y (0, 0, "", 0)) ∨
           Spans.cstop (spans.getD y (0, 0, "", 0)) ≤ Spans.cstart (spans.getD x (0, 0, "", 0))))
          (List.insertionSort (fun a b => Spans.dedupLeB spans a b = true)
            (List.range spans.length)) :=
        hpair.imp (fun h hx hy => Or.inl (h hx hy))
      have hsym : Symmetric (fun x y =>
          Spans.dedupOuter spans
            (List.insertionSort (fun a b => Spans.dedupLeB spans a b = true)
              (List.range spans.length)) (fun _ => true) x = true →
          Spans.dedupOuter spans
            (List.insertionSort (fun a b => Spans.dedupLeB spans a b = true)
              (List.range spans.length)) (fun _ => true) y = true →
          (Spans.cstop (spans.getD x (0, 0, "", 0)) ≤ Spans.cstart (spans.getD y (0, 0, "", 0)) ∨
           Spans.cstop (spans.getD y (0, 0, "", 0)) ≤ Spans.cstart (spans.getD x (0, 0, "", 0)))) := by
        intro x y h hy hx
        exact (h hx hy).symm
      exact List.Pairwise.forall hsym hQ hisort hjsort hij hKi hKj
    refine ⟨?_, ?_, ?_, main4, ?_⟩
    · intro i hi; exact ((hmem i).mp hi).1
    · rw [hout]
      exact List.Pairwise.sublist (List.filter_sublist _) (List.pairwise_lt_range _)
    · intro _
      have h0mem : 0 ∈ List.range spans.length :=
        List.mem_range.mpr (List.length_pos.mpr hemp)
      obtain ⟨x, hx, hKx⟩ := dedupOuter_exists spans
        (List.insertionSort (fun a b => Spans.dedupLeB spans a b = true)
          (List.range spans.length))
        (fun _ => true) hnodup
        ⟨0, (List.mem_insertionSort _).mpr h0mem, rfl⟩
      have hxn : x < spans.length :=
        List.mem_range.mp ((List.mem_insertionSort _).mp hx)
      intro hcontra
      have : x ∈ Spans.deduplicate_spans spans := (hmem x).mpr ⟨hxn, hKx⟩
      rw [hcontra] at this
      exact absurd this (List.not_mem_nil x)
    · intro i hi j hj hij hlt hident
      rcases main4 i hi j hj hij with h | h <;> omega

/-- Witness for `dedup_output_invariants`, discharging the well-formedness
hypothesis and the nonempty-input hypothesis of the kept-index-existence
clause at a concrete one-span list. -/
theorem dedup_output_invariants_witness :
    (∀ s ∈ ([(0, 5, "SSN", 1)] : List Spans.SpanC),
        Spans.cstart s ≤ Spans.cstop s ∧ Spans.cstop s < 2 ^ 64)
    ∧ (([(0, 5, "SSN", 1)] : List Spans.SpanC) ≠ [])
    ∧ Spans.deduplicate_spans [(0, 5, "SSN", 1)] ≠ [] :=
  ⟨by decide, by decide,
    (dedup_output_invariants [(0, 5, "SSN", 1)] (by decide)).2.2.1 (by decide)⟩

lemma sliceList_ne_nil_lt {text : List Char} {s e : Nat} (hse : s ≤ e)
    (h : OpenLabels.sliceList text s e ≠ []) : s < e := by
  unfold OpenLabels.sliceList at h
  by_contra hc
  push_neg at hc
  have he : e - s = 0 := by omega
  simp [he] at h

/-- **C3** (amended): for the openrisk engine's `find_matches_impl` — under
the well-formedness guarantee of the external regex crate that every reported
span satisfies `start ≤ end ≤ len(text)` — every returned `RawMatch` has
`0 ≤ start < end ≤ len(text)`, its `text` field is the exact range
`[start, end)` of the input, and its text is neither empty nor entirely
whitespace.  (The `lib.rs` `PatternMatcher::find_matches` does not filter
empty/whitespace matches, see the counterexample.) -/
theorem openrisk_find_matches_span_invariants
    (c : Openrisk.CompiledPatterns) (text : List Char)
    (hwf : ∀ i, i < c.individual_regexes.length →
      (∀ sp ∈ (c.individual_regexes.getD i Openrisk.defaultRegex).findIter text,
        sp.1 ≤ sp.2 ∧ sp.2 ≤ text.length) ∧
      (∀ og ∈ (c.individual_regexes.getD i Openrisk.defaultRegex).capturesGroup
          (c.metadata.getD i Openrisk.defaultMeta).group_idx text,
        ∀ sp ∈ og.toList, sp.1 ≤ sp.2 ∧ sp.2 ≤ text.length)) :
    ∀ m ∈ Openrisk.find_matches_impl c text,
      m.start < m.end_ ∧ m.end_ ≤ text.length
      ∧ m.text = OpenLabels.sliceList text m.start m.end_
      ∧ m.text ≠ [] ∧ OpenLabels.allWhitespace m.text = false := by
  intro m hm
  unfold Openrisk.find_matches_impl at hm
  rw [List.mem_flatten] at hm
  obtain ⟨ms, hms, hmin⟩ := hm
  rw [List.mem_map] at hms
  obtain ⟨set_idx, hidx, rfl⟩ := hms
  rw [List.mem_filter, List.mem_range] at hidx
  obtain ⟨hlt, -⟩ := hidx
  obtain ⟨hwf1, hwf2⟩ := hwf set_idx hlt
  dsimp only at hmin
  split_ifs at hmin with hg
  · rw [List.mem_filterMap] at hmin
    obtain ⟨og, hog, hbind⟩ := hmin
    rw [Option.bind_eq_some] at hbind
    obtain ⟨sp, hsp, hval⟩ := hbind
    split_ifs at hval with hcond
    · obtain ⟨hne, hws⟩ := hcond
      obtain ⟨hb1, hb2⟩ := hwf2 og hog sp (by simp [hsp])
      cases hval
      exact ⟨sliceList_ne_nil_lt hb1 hne, hb2, rfl, hne, hws⟩
  · rw [List.mem_filterMap] at hmin
    obtain ⟨sp, hsp, hval⟩ := hmin
    split_ifs at hval with hcond
    · obtain ⟨hne, hws⟩ := hcond
      obtain ⟨hb1, hb2⟩ := hwf1 sp hsp
      cases hval
      exact ⟨sliceList_ne_nil_lt hb1 hne, hb2, rfl, hne, hws⟩

/-- Witness for `openrisk_find_matches_span_invariants` at the `\d{16}`
catalog and the 16-digit text, discharging the regex well-formedness
hypothesis by evaluation. -/
theorem openrisk_find_matches_span_invariants_witness :
    (∀ i, i < (Openrisk.compile_patterns
        [(some Openrisk.digit16CR, "CREDIT_CARD", 1, 0)]).individual_regexes.length →
      (∀ sp ∈ ((Openrisk.compile_patterns
          [(some Openrisk.digit16CR, "CREDIT_CARD", 1, 0)]).individual_regexes.getD i
            Openrisk.defaultRegex).findIter "4532015112830366".data,
        sp.1 ≤ sp.2 ∧ sp.2 ≤ "4532015112830366".data.length) ∧
      (∀ og ∈ ((Openrisk.compile_patterns
          [(some Openrisk.digit16CR, "CREDIT_CARD", 1, 0)]).individual_regexes.getD i
            Openrisk.defaultRegex).capturesGroup
          ((Openrisk.compile_patterns
            [(some Openrisk.digit16CR, "CREDIT_CARD", 1, 0)]).metadata.getD i
              Openrisk.defaultMeta).group_idx "4532015112830366".data,
        ∀ sp ∈ og.toList, sp.1 ≤ sp.2 ∧ sp.2 ≤ "4532015112830366".data.length))
    ∧ (⟨0, 0, 16, "4532015112830366".data, "CREDIT_CARD", 1⟩ : Openrisk.RawMatch)
        ∈ Openrisk.find_matches_impl
          (Openrisk.compile_patterns [(some Openrisk.digit16CR, "CREDIT_CARD", 1, 0)])
          "4532015112830366".data
    ∧ ((0 : Nat) < 16 ∧ (16 : Nat) ≤ "4532015112830366".data.length
        ∧ "4532015112830366".data = OpenLabels.sliceList "4532015112830366".data 0 16
        ∧ "4532015112830366".data ≠ []
        ∧ OpenLabels.allWhitespace "4532015112830366".data = false) :=
  ⟨by decide, by decide,
    openrisk_find_matches_span_invariants
      (Openrisk.compile_patterns [(some Openrisk.digit16CR, "CREDIT_CARD", 1, 0)])
      "4532015112830366".data (by decide)
      ⟨0, 0, 16, "4532015112830366".data, "CREDIT_CARD", 1⟩ (by decide)⟩

/-- **C3** (counterexample): the `lib.rs` `PatternMatcher::find_matches` cited
by the claim performs no empty/whitespace filtering: with a pattern matching
runs of spaces, the single-space text yields a `RawMatch` whose matched text
is entirely whitespace. -/
theorem corelib_find_matches_whitespace_counterexample :
    CoreLib.find_matches [⟨"WS", Openrisk.spaceCR, none, 9/10⟩] [' ']
      = .ok [⟨"WS", 0, 1, [' '], 9/10, none⟩]
    ∧ OpenLabels.allWhitespace [' '] = true := by
  refine ⟨?_, by decide⟩
  simp [CoreLib.find_matches, CoreLib.fmAux, CoreLib.processMatches, Openrisk.spaceCR,
    Openrisk.spaceGo, OpenLabels.sliceList]
  norm_num [Bind.bind, Except.bind]

